import Mathlib

/-!
Verification of the WAL-records processor (`wal_records_processor.py`):
a shallow embedding of the record parsing, index building and multi-hop
join logic, together with theorems about the claims of the specification.

Python values (the results of `json.load`) are modelled by the inductive
type `PyVal`.  Python lists and dicts that occur *inside* a value are
encoded with cons-cells (`listNil`/`listCons`, `dictNil`/`dictCons`)
rather than with `List`, so that the type is not a nested inductive and
decidable equality — the model of Python `==` on these values — can be
derived.  The dicts the processor itself manipulates (the derived
name→value mapping of a row, the three join indexes, the accumulating
merged record) are modelled as association lists `List (κ × α)` with
Python-dict insertion semantics (replace in place, else append).
-/
set_option maxHeartbeats 1000000

namespace WalProc

/-- A Python value: `None`, booleans, integers, strings, lists and
(string-keyed) dicts — what `json.load` produces.  Non-integer numerics
(floats) do not occur in any claim and are outside the model. -/
inductive PyVal where
  | none
  | bool (b : Bool)
  | int (n : Int)
  | str (s : String)
  | listNil
  | listCons (hd tl : PyVal)
  | dictNil
  | dictCons (k : String) (v tl : PyVal)
  deriving DecidableEq, Repr, Inhabited

/-- Python error classes that the embedded code can raise. -/
inductive PyErr where
  | valueError
  | indexError
  | typeError
  | jsonDecodeError
  deriving DecidableEq, Repr

/-- `d.get(k)` / `d[k]`-style lookup in a Python dict modelled as an
association list: the value of the first entry whose key equals `k`
(Python dicts hold at most one entry per key).  Key matching uses the
structural equality of the model (Python `==` conflates `True` with `1`
and `1` with `1.0`; no value of the WAL format relies on that).  This
primitive is the hashable-key case only: `dict.get` on an *unhashable*
key raises `TypeError`, which `dictGet` below models for the join-phase
lookups, whose keys come from the transformed mapping and can be
decoded lists or dicts. -/
def lookupEntry {κ α : Type} [DecidableEq κ] (k : κ) : List (κ × α) → Option α
  | [] => Option.none
  | (k', v) :: rest => if k' = k then some v else lookupEntry k rest

/-- `d[k] = v` on a Python dict modelled as an association list: replace
the value in place if the key is present, otherwise append the new entry
(Python dicts preserve insertion order). -/
def updateEntry {κ α : Type} [DecidableEq κ] (k : κ) (v : α) : List (κ × α) → List (κ × α)
  | [] => [(k, v)]
  | (k', v') :: rest => if k' = k then (k', v) :: rest else (k', v') :: updateEntry k v rest

/-- `dict(pairs)`: build a Python dict from a pair sequence, later pairs
overwriting earlier ones with the same key. -/
def dictOfPairs {κ α : Type} [DecidableEq κ] (pairs : List (κ × α)) : List (κ × α) :=
  pairs.foldl (fun acc kv => updateEntry kv.1 kv.2 acc) []

/-- `d.update(other)`: insert every entry of `other`, in order, into `d`. -/
def dictUpdate {κ α : Type} [DecidableEq κ] (d other : List (κ × α)) : List (κ × α) :=
  other.foldl (fun acc kv => updateEntry kv.1 kv.2 acc) d

/-- Python `list.index(x)` without the exception: the first index whose
element equals `x`, if any. -/
def listIndex {α : Type} [DecidableEq α] (x : α) : List α → Option Nat
  | [] => Option.none
  | y :: ys => if y = x then some 0 else (listIndex x ys).map (· + 1)

/-- Is the value hashable in Python?  `None`, booleans, integers and
strings are; lists and dicts (the only composite values in the model)
are not. -/
def pyHashable : PyVal → Bool
  | PyVal.none => true
  | PyVal.bool _ => true
  | PyVal.int _ => true
  | PyVal.str _ => true
  | PyVal.listNil => false
  | PyVal.listCons _ _ => false
  | PyVal.dictNil => false
  | PyVal.dictCons _ _ _ => false

/-- `d.get(k)` on a Python dict with an arbitrary key: raises
`TypeError: unhashable type` when the key is a list or dict, otherwise
returns the entry (`None` when absent). -/
def dictGet {α : Type} (k : PyVal) (d : List (PyVal × α)) : Except PyErr (Option α) :=
  if pyHashable k then Except.ok (lookupEntry k d) else Except.error PyErr.typeError

/-! ### Model of `json.loads` (the decode used by `transform_to_dict_if_json`) -/

/-- The opening brace character (written by code point to keep braces out
of literals). -/
def lbrace : Char := Char.ofNat 123

/-- The closing brace character. -/
def rbrace : Char := Char.ofNat 125

/-- JSON insignificant whitespace skipping. -/
def jsonSkipWs : List Char → List Char
  | c :: cs =>
    if c = ' ' ∨ c = '\t' ∨ c = '\n' ∨ c = '\r' then jsonSkipWs cs else c :: cs
  | [] => []

/-- Value of a hex digit, if the character is one. -/
def hexDigit (c : Char) : Option Nat :=
  if '0' ≤ c ∧ c ≤ '9' then some (c.toNat - 48)
  else if 'a' ≤ c ∧ c ≤ 'f' then some (c.toNat - 87)
  else if 'A' ≤ c ∧ c ≤ 'F' then some (c.toNat - 55)
  else Option.none

/-- The character a single-letter JSON escape stands for. -/
def escapeChar (c : Char) : Option Char :=
  if c = '"' ∨ c = '\\' ∨ c = '/' then some c
  else if c = 'n' then some '\n'
  else if c = 't' then some '\t'
  else if c = 'r' then some '\r'
  else if c = 'b' then some (Char.ofNat 8)
  else if c = 'f' then some (Char.ofNat 12)
  else Option.none

/-- Fueled worker for a JSON string body (after the opening quote):
returns the decoded characters and the input after the closing quote.
Every step consumes at least one input character, so fuel = length
suffices. -/
def parseStringAux : Nat → List Char → Option (List Char × List Char)
  | 0, _ => Option.none
  | _ + 1, [] => Option.none
  | fuel + 1, c :: cs =>
    if c = '"' then some ([], cs)
    else if c = '\\' then
      match cs with
      | [] => Option.none
      | e :: cs' =>
        if e = 'u' then
          match cs' with
          | h1 :: h2 :: h3 :: h4 :: cs'' => do
            let d1 ← hexDigit h1
            let d2 ← hexDigit h2
            let d3 ← hexDigit h3
            let d4 ← hexDigit h4
            let (restChars, rem) ← parseStringAux fuel cs''
            some (Char.ofNat (((d1 * 16 + d2) * 16 + d3) * 16 + d4) :: restChars, rem)
          | _ => Option.none
        else do
          let ec ← escapeChar e
          let (restChars, rem) ← parseStringAux fuel cs'
          some (ec :: restChars, rem)
    else do
      let (restChars, rem) ← parseStringAux fuel cs
      some (c :: restChars, rem)

/-- Parse a JSON string body (after the opening quote). -/
def parseStringChars (cs : List Char) : Option (List Char × List Char) :=
  parseStringAux (cs.length + 1) cs

/-- Decimal value of a digit run. -/
def digitsToNat (ds : List Char) : Nat :=
  ds.foldl (fun a c => a * 10 + (c.toNat - 48)) 0

/-- Parse a JSON non-negative integer literal (no leading zeros, as in
the JSON grammar).  A following `.`, `e` or `E` would start a float,
which is outside the model: the parse fails and the raw value is kept. -/
def parseNatLit (cs : List Char) : Option (Nat × List Char) :=
  let digits := cs.takeWhile Char.isDigit
  let rest := cs.dropWhile Char.isDigit
  if digits = [] then Option.none
  else if 1 < digits.length ∧ digits.head? = some '0' then Option.none
  else
    match rest with
    | c :: _ =>
      if c = '.' ∨ c = 'e' ∨ c = 'E' then Option.none else some (digitsToNat digits, rest)
    | [] => some (digitsToNat digits, rest)

/-- Parse a JSON integer literal, with optional leading minus sign. -/
def parseNumber (cs : List Char) : Option (PyVal × List Char) :=
  match cs with
  | '-' :: rest => (parseNatLit rest).map (fun nr => (PyVal.int (-(nr.1 : Int)), nr.2))
  | _ => (parseNatLit cs).map (fun nr => (PyVal.int (nr.1 : Int), nr.2))

mutual

/-- Fueled parser for one JSON value (leading whitespace allowed). -/
def parseVal : Nat → List Char → Option (PyVal × List Char)
  | 0, _ => Option.none
  | fuel + 1, cs =>
    match jsonSkipWs cs with
    | [] => Option.none
    | c :: rest =>
      if c = 'n' then
        match rest with
        | 'u' :: 'l' :: 'l' :: rem => some (PyVal.none, rem)
        | _ => Option.none
      else if c = 't' then
        match rest with
        | 'r' :: 'u' :: 'e' :: rem => some (PyVal.bool true, rem)
        | _ => Option.none
      else if c = 'f' then
        match rest with
        | 'a' :: 'l' :: 's' :: 'e' :: rem => some (PyVal.bool false, rem)
        | _ => Option.none
      else if c = '"' then
        (parseStringChars rest).map (fun sr => (PyVal.str (String.mk sr.1), sr.2))
      else if c = '[' then
        match jsonSkipWs rest with
        | ']' :: rem => some (PyVal.listNil, rem)
        | rest' => parseArrItems fuel rest'
      else if c = lbrace then
        match jsonSkipWs rest with
        | d :: rem =>
          if d = rbrace then some (PyVal.dictNil, rem) else parseObjItems fuel (d :: rem)
        | [] => Option.none
      else if c = '-' ∨ c.isDigit then parseNumber (c :: rest)
      else Option.none

/-- Fueled parser for the items of a non-empty JSON array, up to and
including the closing bracket. -/
def parseArrItems : Nat → List Char → Option (PyVal × List Char)
  | 0, _ => Option.none
  | fuel + 1, cs => do
    let (v, rem) ← parseVal fuel cs
    match jsonSkipWs rem with
    | ',' :: rem' => do
      let (tl, rem'') ← parseArrItems fuel rem'
      match tl with
      | PyVal.listNil => Option.none
      | _ => some (PyVal.listCons v tl, rem'')
    | ']' :: rem' => some (PyVal.listCons v PyVal.listNil, rem')
    | _ => Option.none

/-- Fueled parser for the members of a non-empty JSON object, up to and
including the closing brace. -/
def parseObjItems : Nat → List Char → Option (PyVal × List Char)
  | 0, _ => Option.none
  | fuel + 1, cs =>
    match jsonSkipWs cs with
    | '"' :: rest => do
      let (kchars, rem) ← parseStringChars rest
      match jsonSkipWs rem with
      | ':' :: rem' => do
        let (v, rem'') ← parseVal fuel rem'
        match jsonSkipWs rem'' with
        | ',' :: rem3 => do
          let (tl, rem4) ← parseObjItems fuel rem3
          match tl with
          | PyVal.dictNil => Option.none
          | _ => some (PyVal.dictCons (String.mk kchars) v tl, rem4)
        | d :: rem3 =>
          if d = rbrace then some (PyVal.dictCons (String.mk kchars) v PyVal.dictNil, rem3)
          else Option.none
        | [] => Option.none
      | _ => Option.none
    | _ => Option.none

end

/-- Model of `json.loads`.  Only a string argument can be decoded (any
other argument raises `TypeError`); the string must consist of exactly
one JSON value with optional surrounding whitespace, else
`JSONDecodeError`. -/
def pyJsonLoads : PyVal → Except PyErr PyVal
  | PyVal.str s =>
    match parseVal (4 * s.toList.length + 4) s.toList with
    | some (v, rem) =>
      if jsonSkipWs rem = [] then Except.ok v else Except.error PyErr.jsonDecodeError
    | Option.none => Except.error PyErr.jsonDecodeError
  | _ => Except.error PyErr.typeError

/-- `WALRow.transform_to_dict_if_json`: try `json.loads` on the value;
`json.JSONDecodeError` and `TypeError` — the exact classes the `except`
clause catches — leave the original value unchanged, while any other
error would propagate to the caller. -/
def transform_to_dict_if_json (value : PyVal) : Except PyErr PyVal :=
  match pyJsonLoads value with
  | Except.ok v => Except.ok v
  | Except.error PyErr.jsonDecodeError => Except.ok value
  | Except.error PyErr.typeError => Except.ok value
  | Except.error e => Except.error e

/-- The value `transform_to_dict_if_json` evaluates to: the decoded
value on a successful decode, the original value otherwise.
`transform_to_dict_if_json_eq_run` proves the two agree, i.e. that the
transform never raises. -/
def transformRun (value : PyVal) : PyVal :=
  match pyJsonLoads value with
  | Except.ok v => v
  | Except.error _ => value

/-! ### The row model (`WALRow` and its per-table variants) -/

/-- A change-record payload as it stands after the `row["change"][0]`
unwrap in `load`: the six fields `WALRow.from_dict` reads.  `table` and
the column names are the JSON strings they are in the capture format. -/
structure ChangeRecord where
  kind : PyVal
  schema : PyVal
  table : String
  columnnames : List String
  columntypes : List PyVal
  columnvalues : List PyVal
  deriving DecidableEq, Repr

/-- The `WALRow` dataclass: the raw record fields plus the derived
name→value mapping `column_names_values`.  The four per-table dataclass
variants add no fields, only methods, so a single structure models all
of them. -/
structure WALRow where
  kind : PyVal
  schema : PyVal
  table : String
  column_names : List String
  column_types : List PyVal
  column_values : List PyVal
  column_names_values : List (String × PyVal)
  deriving DecidableEq, Repr

/-- `WALRow.from_dict`: builds the instance, deriving
`column_names_values` as `dict(zip(columnnames, [transform(v) for v in
columnvalues]))` — `zip` silently truncates to the shorter sequence. -/
def WALRow.from_dict (data : ChangeRecord) : WALRow :=
  { kind := data.kind
    schema := data.schema
    table := data.table
    column_names := data.columnnames
    column_types := data.columntypes
    column_values := data.columnvalues
    column_names_values :=
      dictOfPairs (data.columnnames.zip (data.columnvalues.map transformRun)) }

/-- Split a character sequence on `'.'`, Python `str.split(".")` style:
`"abc" → ["abc"]`, `"a.b" → ["a", "b"]`, `"a." → ["a", ""]`. -/
def splitOnDot : List Char → List (List Char)
  | [] => [[]]
  | c :: cs =>
    if c = '.' then [] :: splitOnDot cs
    else
      match splitOnDot cs with
      | seg :: rest => (c :: seg) :: rest
      | [] => [[c]]

/-- `key.split(".")[-1]`: the last `.`-separated segment of a column
name (`split` always returns a non-empty list, so `[-1]` exists). -/
def lastSegment (key : String) : String :=
  String.mk ((splitOnDot key.toList).getLastD key.toList)

/-- The dict comprehension shared by every `get_insertable_values`
implementation: for each listed source column, map its last dotted
segment to `self.column_names_values.get(key)` (`None` when the column
is absent). -/
def insertableValues (keys : List String) (row : WALRow) : List (String × PyVal) :=
  dictOfPairs (keys.map fun key =>
    (lastSegment key, (lookupEntry key row.column_names_values).getD PyVal.none))

/-- `EventV2DataRow.get_insertable_values`. -/
def EventV2DataRow.get_insertable_values (row : WALRow) : List (String × PyVal) :=
  insertableValues
    ["event_id", "flow_id", "created_at", "transaction_lifecycle_event",
      "error_details.decline_reason", "error_details.decline_type"] row

/-- `TransactionsRow.get_insertable_values`. -/
def TransactionsRow.get_insertable_values (row : WALRow) : List (String × PyVal) :=
  insertableValues
    ["transaction_id", "transaction_type", "created_at", "amount",
      "currency_code", "processor_merchant_account_id"] row

/-- `TransactionRequestsRow.get_insertable_values`. -/
def TransactionRequestsRow.get_insertable_values (row : WALRow) : List (String × PyVal) :=
  insertableValues ["vault_options.payment_method"] row

/-- `PaymentInstrumentTokenDataRow.get_insertable_values`. -/
def PaymentInstrumentTokenDataRow.get_insertable_values (row : WALRow) :
    List (String × PyVal) :=
  insertableValues
    ["three_d_secure_authentication", "payment_instrument_type",
      "vault_data.customer_id"] row

/-- The shared body of the three `get_join_key` implementations:
`self.column_names.index(keyCol)` raises `ValueError` when the column
is absent (so the `if value_index is not None` guard is always taken on
success), and `self.column_values[value_index]` raises `IndexError`
when the values list is shorter. -/
def getJoinKeyBy (keyCol : String) (row : WALRow) : Except PyErr PyVal :=
  match listIndex keyCol row.column_names with
  | Option.none => Except.error PyErr.valueError
  | some i =>
    match row.column_values[i]? with
    | some v => Except.ok v
    | Option.none => Except.error PyErr.indexError

/-- `TransactionsRow.get_join_key`. -/
def TransactionsRow.get_join_key (row : WALRow) : Except PyErr PyVal :=
  getJoinKeyBy "transaction_id" row

/-- `TransactionRequestsRow.get_join_key`. -/
def TransactionRequestsRow.get_join_key (row : WALRow) : Except PyErr PyVal :=
  getJoinKeyBy "flow_id" row

/-- `PaymentInstrumentTokenDataRow.get_join_key`. -/
def PaymentInstrumentTokenDataRow.get_join_key (row : WALRow) : Except PyErr PyVal :=
  getJoinKeyBy "token_id" row

/-! ### The output row -/

/-- The `InsertableRow` dataclass: the fixed flat output schema, every
field defaulting to `None`. -/
structure InsertableRow where
  event_id : PyVal := PyVal.none
  flow_id : PyVal := PyVal.none
  created_at : PyVal := PyVal.none
  transaction_lifecycle_event : PyVal := PyVal.none
  decline_reason : PyVal := PyVal.none
  decline_type : PyVal := PyVal.none
  payment_method : PyVal := PyVal.none
  transaction_id : PyVal := PyVal.none
  transaction_type : PyVal := PyVal.none
  amount : PyVal := PyVal.none
  currency_code : PyVal := PyVal.none
  processor_merchant_account_id : PyVal := PyVal.none
  three_d_secure_authentication : PyVal := PyVal.none
  payment_instrument_type : PyVal := PyVal.none
  customer_id : PyVal := PyVal.none
  deriving DecidableEq, Repr

/-- The field names of `InsertableRow`, in declaration order. -/
def insertableFieldNames : List String :=
  ["event_id", "flow_id", "created_at", "transaction_lifecycle_event",
    "decline_reason", "decline_type", "payment_method", "transaction_id",
    "transaction_type", "amount", "currency_code",
    "processor_merchant_account_id", "three_d_secure_authentication",
    "payment_instrument_type", "customer_id"]

/-- The row `InsertableRow(**m)` constructs when every key of `m` is a
field name: listed fields take the dict's value, the rest their `None`
default. -/
def insertableRowOfDict (m : List (String × PyVal)) : InsertableRow :=
  { event_id := (lookupEntry "event_id" m).getD PyVal.none
    flow_id := (lookupEntry "flow_id" m).getD PyVal.none
    created_at := (lookupEntry "created_at" m).getD PyVal.none
    transaction_lifecycle_event :=
      (lookupEntry "transaction_lifecycle_event" m).getD PyVal.none
    decline_reason := (lookupEntry "decline_reason" m).getD PyVal.none
    decline_type := (lookupEntry "decline_type" m).getD PyVal.none
    payment_method := (lookupEntry "payment_method" m).getD PyVal.none
    transaction_id := (lookupEntry "transaction_id" m).getD PyVal.none
    transaction_type := (lookupEntry "transaction_type" m).getD PyVal.none
    amount := (lookupEntry "amount" m).getD PyVal.none
    currency_code := (lookupEntry "currency_code" m).getD PyVal.none
    processor_merchant_account_id :=
      (lookupEntry "processor_merchant_account_id" m).getD PyVal.none
    three_d_secure_authentication :=
      (lookupEntry "three_d_secure_authentication" m).getD PyVal.none
    payment_instrument_type :=
      (lookupEntry "payment_instrument_type" m).getD PyVal.none
    customer_id := (lookupEntry "customer_id" m).getD PyVal.none }

/-- `InsertableRow(**m)`: keyword expansion raises `TypeError` when `m`
holds a key that is not a field of the dataclass. -/
def mkInsertableRow (m : List (String × PyVal)) : Except PyErr InsertableRow :=
  if m.all (fun kv => insertableFieldNames.contains kv.1) then
    Except.ok (insertableRowOfDict m)
  else Except.error PyErr.typeError

/-! ### The processor: index building (`load`) and the join
(`merge_insertable_rows`) -/
/-- The mutable collections of `WalRecordsProcessor`.  The logger and
the SQLite client are external collaborators outside the model. -/
structure ProcessorState where
  event_v2_data_rows : List WALRow := []
  transaction_rows : List (PyVal × WALRow) := []
  transaction_request_rows : List (PyVal × WALRow) := []
  payment_instrument_token_data_rows : List (PyVal × WALRow) := []
  insertable_rows : List InsertableRow := []
  deriving DecidableEq, Repr

/-- A freshly constructed processor: all collections empty. -/
def emptyProcessor : ProcessorState := {}

/-- One iteration of the `load` loop (after the `change[0]` unwrap):
the `match row["table"]` dispatch.  Unknown tables are logged and
dropped; an error raised by `get_join_key` propagates. -/
def loadStep (s : ProcessorState) (row : ChangeRecord) : Except PyErr ProcessorState :=
  if row.table = "event_v2_data" then
    Except.ok
      { s with event_v2_data_rows := s.event_v2_data_rows ++ [WALRow.from_dict row] }
  else if row.table = "transaction" then
    match TransactionsRow.get_join_key (WALRow.from_dict row) with
    | Except.ok k =>
      Except.ok
        { s with transaction_rows := updateEntry k (WALRow.from_dict row) s.transaction_rows }
    | Except.error e => Except.error e
  else if row.table = "transaction_request" then
    match TransactionRequestsRow.get_join_key (WALRow.from_dict row) with
    | Except.ok k =>
      Except.ok
        { s with transaction_request_rows :=
            updateEntry k (WALRow.from_dict row) s.transaction_request_rows }
    | Except.error e => Except.error e
  else if row.table = "payment_instrument_token_data" then
    match PaymentInstrumentTokenDataRow.get_join_key (WALRow.from_dict row) with
    | Except.ok k =>
      Except.ok
        { s with payment_instrument_token_data_rows :=
            updateEntry k (WALRow.from_dict row) s.payment_instrument_token_data_rows }
    | Except.error e => Except.error e
  else Except.ok s

/-- `WalRecordsProcessor.load`: processes the unwrapped change records
in input order.  (Reading the JSON file and the `change[0]` unwrap are
outside the model; an uncaught error from `get_join_key` aborts the
whole load.) -/
def load (s : ProcessorState) : List ChangeRecord → Except PyErr ProcessorState
  | [] => Except.ok s
  | row :: rest =>
    match loadStep s row with
    | Except.ok s' => load s' rest
    | Except.error e => Except.error e

/-- The lookup key `event_v2_data_row.column_names_values.get("transaction_id")`:
the event's own (transformed) `transaction_id` value, `None` when the
column is absent. -/
def eventTxKey (event : WALRow) : PyVal :=
  (lookupEntry "transaction_id" event.column_names_values).getD PyVal.none

/-- The lookup key `event_v2_data_row.column_names_values.get("flow_id")`. -/
def eventFlowKey (event : WALRow) : PyVal :=
  (lookupEntry "flow_id" event.column_names_values).getD PyVal.none

/-- The lookup key `transaction_request_row.column_names_values.get("token_id")`. -/
def rowTokenKey (t : WALRow) : PyVal :=
  (lookupEntry "token_id" t.column_names_values).getD PyVal.none

/-- The accumulating `merged_row` dict for one event row *when every
index lookup succeeds* (hashable lookup keys): the event's own
extraction, then the three hop lookups with `dict.update` merges.
`if transaction_row:` tests truthiness, but a dataclass instance is
always truthy, so both guards reduce to an is-not-`None` test.  The
token lookup is attempted only when the transaction-request hop
matched, and uses that row's own `token_id`.  `mergeEventRow` below is
the loop body with the `TypeError` path of the lookups included;
`mergeEventRow_ok_of_hashable` relates the two. -/
def mergeEventDict (event : WALRow) (txIdx trIdx pitdIdx : List (PyVal × WALRow)) :
    List (String × PyVal) :=
  let merged := EventV2DataRow.get_insertable_values event
  let transaction_row := lookupEntry (eventTxKey event) txIdx
  let merged :=
    match transaction_row with
    | some t => dictUpdate merged (TransactionsRow.get_insertable_values t)
    | Option.none => merged
  let transaction_request_row := lookupEntry (eventFlowKey event) trIdx
  let merged :=
    match transaction_request_row with
    | some t => dictUpdate merged (TransactionRequestsRow.get_insertable_values t)
    | Option.none => merged
  let payment_instrument_token_data_row :=
    match transaction_request_row with
    | some t => lookupEntry (rowTokenKey t) pitdIdx
    | Option.none => Option.none
  match payment_instrument_token_data_row with
  | some p => dictUpdate merged (PaymentInstrumentTokenDataRow.get_insertable_values p)
  | Option.none => merged

/-- One iteration of the `merge_insertable_rows` loop, in statement
order: the transaction lookup, its merge, the transaction-request
lookup, its merge, the token lookup (only when the request matched,
with that row's own `token_id`), its merge, then
`InsertableRow(**merged_row)`.  Each `dict.get` raises `TypeError` when
its key — a value of the transformed mapping — is a decoded list or
dict. -/
def mergeEventRow (event : WALRow) (txIdx trIdx pitdIdx : List (PyVal × WALRow)) :
    Except PyErr InsertableRow :=
  let merged := EventV2DataRow.get_insertable_values event
  match dictGet (eventTxKey event) txIdx with
  | Except.error e => Except.error e
  | Except.ok transaction_row =>
    let merged :=
      match transaction_row with
      | some t => dictUpdate merged (TransactionsRow.get_insertable_values t)
      | Option.none => merged
    match dictGet (eventFlowKey event) trIdx with
    | Except.error e => Except.error e
    | Except.ok transaction_request_row =>
      let merged :=
        match transaction_request_row with
        | some t => dictUpdate merged (TransactionRequestsRow.get_insertable_values t)
        | Option.none => merged
      match
        (match transaction_request_row with
        | some t => dictGet (rowTokenKey t) pitdIdx
        | Option.none => Except.ok Option.none) with
      | Except.error e => Except.error e
      | Except.ok payment_instrument_token_data_row =>
        let merged :=
          match payment_instrument_token_data_row with
          | some p =>
            dictUpdate merged (PaymentInstrumentTokenDataRow.get_insertable_values p)
          | Option.none => merged
        mkInsertableRow merged

/-- The row the loop body evaluates to when its lookups succeed
(`mergeEventRow_ok_of_hashable` proves the agreement). -/
def mergeEventRowFun (event : WALRow) (txIdx trIdx pitdIdx : List (PyVal × WALRow)) :
    InsertableRow :=
  insertableRowOfDict (mergeEventDict event txIdx trIdx pitdIdx)

/-- Are the lookup keys the merge uses for this event row hashable: its
own transformed `transaction_id` and `flow_id` values, and — when the
transaction-request hop matches — that row's transformed `token_id`
value. -/
def eventLookupKeysHashable (event : WALRow) (trIdx : List (PyVal × WALRow)) : Bool :=
  pyHashable (eventTxKey event) && pyHashable (eventFlowKey event) &&
    (match lookupEntry (eventFlowKey event) trIdx with
    | some t => pyHashable (rowTokenKey t)
    | Option.none => true)

/-- The `merge_insertable_rows` loop over the event rows, appending one
insertable row per event to the accumulator. -/
def mergeLoop (txIdx trIdx pitdIdx : List (PyVal × WALRow)) (acc : List InsertableRow) :
    List WALRow → Except PyErr (List InsertableRow)
  | [] => Except.ok acc
  | ev :: evs =>
    match mergeEventRow ev txIdx trIdx pitdIdx with
    | Except.ok r => mergeLoop txIdx trIdx pitdIdx (acc ++ [r]) evs
    | Except.error e => Except.error e

/-- `WalRecordsProcessor.merge_insertable_rows`. -/
def merge_insertable_rows (s : ProcessorState) : Except PyErr ProcessorState :=
  match mergeLoop s.transaction_rows s.transaction_request_rows
      s.payment_instrument_token_data_rows s.insertable_rows s.event_v2_data_rows with
  | Except.ok rows => Except.ok { s with insertable_rows := rows }
  | Except.error e => Except.error e

/-! ### Derived views of the merge and the index build, used in the proofs -/

/-- `row.column_names_values.get(key)`: the value an extraction reads
for one source column (`None` when the column is absent). -/
def colGet (row : WALRow) (key : String) : PyVal :=
  (lookupEntry key row.column_names_values).getD PyVal.none

/-- Does change record `r` belong to table `tbl` and parse to a row
whose join key (per key column `keyCol`) is `k`? -/
def recordHasKey (tbl keyCol : String) (k : PyVal) (r : ChangeRecord) : Bool :=
  decide (r.table = tbl) &&
    (match getJoinKeyBy keyCol (WALRow.from_dict r) with
    | Except.ok k' => decide (k' = k)
    | Except.error _ => false)

/-- The last record in the list that belongs to table `tbl` and has
join key `k`. -/
def lastRecordWith (tbl keyCol : String) (k : PyVal) : List ChangeRecord → Option ChangeRecord
  | [] => Option.none
  | r :: rs =>
    match lastRecordWith tbl keyCol k rs with
    | some r' => some r'
    | Option.none => if recordHasKey tbl keyCol k r then some r else Option.none

/-! ### Sample rows and records used to instantiate claims at concrete
inputs (built the way the repository's own unit tests build fixtures) -/

/-- An event row carrying only `event_id` and `flow_id` (no
`transaction_id` column). -/
def evFlowOnly : WALRow :=
  ⟨PyVal.str "insert", PyVal.str "public", "event_v2_data", ["event_id", "flow_id"],
    [], [PyVal.int 1, PyVal.int 3],
    [("event_id", PyVal.int 1), ("flow_id", PyVal.int 3)]⟩

/-- A token row whose key equals `evFlowOnly`'s `flow_id` value. -/
def pitdCoincidental : WALRow :=
  ⟨PyVal.str "insert", PyVal.str "public", "payment_instrument_token_data",
    ["token_id", "three_d_secure_authentication"], [],
    [PyVal.int 3, PyVal.str "authenticated"],
    [("token_id", PyVal.int 3),
      ("three_d_secure_authentication", PyVal.str "authenticated")]⟩

/-- An event row with `transaction_id = 1`. -/
def evTxOne : WALRow :=
  ⟨PyVal.str "insert", PyVal.str "public", "event_v2_data",
    ["event_id", "transaction_id"], [], [PyVal.int 1, PyVal.int 1],
    [("event_id", PyVal.int 1), ("transaction_id", PyVal.int 1)]⟩

/-- An event row with `transaction_id = 2` and its own `created_at`. -/
def evWithTx : WALRow :=
  ⟨PyVal.str "insert", PyVal.str "public", "event_v2_data",
    ["event_id", "transaction_id", "created_at"], [],
    [PyVal.int 1, PyVal.int 2, PyVal.str "2023-01-01"],
    [("event_id", PyVal.int 1), ("transaction_id", PyVal.int 2),
      ("created_at", PyVal.str "2023-01-01")]⟩

/-- A transaction row (key 2) that carries its own `created_at`. -/
def txWithCreatedAt : WALRow :=
  ⟨PyVal.str "insert", PyVal.str "public", "transaction",
    ["transaction_id", "created_at"], [],
    [PyVal.int 2, PyVal.str "2024-12-31"],
    [("transaction_id", PyVal.int 2), ("created_at", PyVal.str "2024-12-31")]⟩

/-- A transaction row (key 2) without a `created_at` column. -/
def txNoCreatedAt : WALRow :=
  ⟨PyVal.str "insert", PyVal.str "public", "transaction",
    ["transaction_id", "transaction_type"], [],
    [PyVal.int 2, PyVal.str "sale"],
    [("transaction_id", PyVal.int 2), ("transaction_type", PyVal.str "sale")]⟩

/-- An event change record with no `transaction_id` column. -/
def evNoTxRecC3 : ChangeRecord :=
  ⟨PyVal.str "insert", PyVal.str "public", "event_v2_data", ["event_id"], [],
    [PyVal.int 1]⟩

/-- A transaction change record whose `transaction_id` value is null, so
its join key is `None`. -/
def nullTxRecC3 : ChangeRecord :=
  ⟨PyVal.str "insert", PyVal.str "public", "transaction",
    ["transaction_id", "transaction_type"], [], [PyVal.none, PyVal.str "sale"]⟩

/-- The processor state `load` builds from `[nullTxRecC3, evNoTxRecC3]`. -/
def loadedC3 : ProcessorState :=
  { event_v2_data_rows := [WALRow.from_dict evNoTxRecC3]
    transaction_rows := [(PyVal.none, WALRow.from_dict nullTxRecC3)] }

/-- A change record with mismatched `columnnames`/`columnvalues`
lengths. -/
def mismatchedRecC4 : ChangeRecord :=
  ⟨PyVal.str "insert", PyVal.str "public", "transaction", ["a", "b"], [],
    [PyVal.int 1]⟩

/-- Two transaction change records sharing join key 7. -/
def txRecAC6 : ChangeRecord :=
  ⟨PyVal.str "insert", PyVal.str "public", "transaction",
    ["transaction_id", "transaction_type"], [], [PyVal.int 7, PyVal.str "auth"]⟩

/-- The later record with the same join key as `txRecAC6`. -/
def txRecBC6 : ChangeRecord :=
  ⟨PyVal.str "insert", PyVal.str "public", "transaction",
    ["transaction_id", "transaction_type"], [], [PyVal.int 7, PyVal.str "sale"]⟩

/-- A batch with a join-key collision. -/
def batchC6 : List ChangeRecord := [txRecAC6, txRecBC6]

/-- The state `load` builds from `batchC6`: the later record won. -/
def stateC6 : ProcessorState :=
  { transaction_rows := [(PyVal.int 7, WALRow.from_dict txRecBC6)] }

/-- A transaction row whose `transaction_id` column sits at index 1. -/
def rowWithTxId : WALRow :=
  ⟨PyVal.str "insert", PyVal.str "public", "transaction",
    ["amount", "transaction_id"], [], [PyVal.int 100, PyVal.int 7],
    [("amount", PyVal.int 100), ("transaction_id", PyVal.int 7)]⟩

/-- A transaction change record with no `transaction_id` column. -/
def recMissingTxId : ChangeRecord :=
  ⟨PyVal.str "insert", PyVal.str "public", "transaction", ["amount"], [],
    [PyVal.int 100]⟩

/-- An event change record whose `transaction_id` value is a
JSON-object string: the parse decodes it to a dict, so the merge's
transaction lookup key is unhashable. -/
def dictKeyEvRec : ChangeRecord :=
  ⟨PyVal.str "insert", PyVal.str "public", "event_v2_data",
    ["event_id", "transaction_id"], [],
    [PyVal.int 1, PyVal.str "\x7b\"a\": 1\x7d"]⟩

/-- A processor state holding the one event row parsed from
`dictKeyEvRec`. -/
def stateDictKey : ProcessorState :=
  { event_v2_data_rows := [WALRow.from_dict dictKeyEvRec] }

/-- An event change record with ordinary integer key values. -/
def plainEvRec : ChangeRecord :=
  ⟨PyVal.str "insert", PyVal.str "public", "event_v2_data",
    ["event_id", "transaction_id", "flow_id"], [],
    [PyVal.int 1, PyVal.int 2, PyVal.int 3]⟩

/-- A processor state holding the one event row parsed from
`plainEvRec`. -/
def statePlainEv : ProcessorState :=
  { event_v2_data_rows := [WALRow.from_dict plainEvRec] }

/-! ### Lemmas about the dict and list primitives -/

@[simp]
theorem lookupEntry_nil {κ α : Type} [DecidableEq κ] (k : κ) :
    lookupEntry (α := α) k [] = Option.none := rfl

theorem lookupEntry_updateEntry {κ α : Type} [DecidableEq κ] (k k' : κ) (v : α)
    (l : List (κ × α)) :
    lookupEntry k (updateEntry k' v l) =
      if k' = k then some v else lookupEntry k l := by
  induction l with
  | nil => simp [updateEntry, lookupEntry]
  | cons hd tl ih =>
    obtain ⟨a, b⟩ := hd
    by_cases hak : a = k' <;> by_cases hkk : k' = k
    · subst hak; subst hkk; simp [updateEntry, lookupEntry]
    · subst hak; simp [updateEntry, lookupEntry, hkk]
    · subst hkk; simp [updateEntry, lookupEntry, hak, ih]
    · simp [updateEntry, lookupEntry, hak, hkk, ih]

theorem lookupEntry_eq_none_of_not_mem_keys {κ α : Type} [DecidableEq κ] (k : κ)
    (m : List (κ × α)) (h : k ∉ m.map Prod.fst) : lookupEntry k m = Option.none := by
  induction m with
  | nil => rfl
  | cons hd tl ih =>
    obtain ⟨a, b⟩ := hd
    simp only [List.map_cons, List.mem_cons] at h
    push_neg at h
    have hak : ¬a = k := fun hh => h.1 hh.symm
    simp [lookupEntry, hak, ih h.2]

theorem mem_keys_updateEntry {κ α : Type} [DecidableEq κ] (k a : κ) (v : α)
    (m : List (κ × α)) (h : a ∈ (updateEntry k v m).map Prod.fst) :
    a = k ∨ a ∈ m.map Prod.fst := by
  induction m with
  | nil => simpa [updateEntry] using h
  | cons hd tl ih =>
    obtain ⟨c, d⟩ := hd
    by_cases hck : c = k
    · simp only [updateEntry, if_pos hck, List.map_cons, List.mem_cons] at h ⊢
      rcases h with rfl | h
      · exact Or.inr (Or.inl rfl)
      · exact Or.inr (Or.inr h)
    · simp only [updateEntry, if_neg hck, List.map_cons, List.mem_cons] at h ⊢
      rcases h with rfl | h
      · exact Or.inr (Or.inl rfl)
      · rcases ih h with rfl | h'
        · exact Or.inl rfl
        · exact Or.inr (Or.inr h')

theorem mem_keys_dictUpdate {κ α : Type} [DecidableEq κ] (a : κ)
    (other d : List (κ × α)) (h : a ∈ (dictUpdate d other).map Prod.fst) :
    a ∈ d.map Prod.fst ∨ a ∈ other.map Prod.fst := by
  induction other generalizing d with
  | nil => exact Or.inl h
  | cons hd tl ih =>
    obtain ⟨c, v⟩ := hd
    have hstep : dictUpdate d ((c, v) :: tl) = dictUpdate (updateEntry c v d) tl := rfl
    rw [hstep] at h
    rcases ih (updateEntry c v d) h with h' | h'
    · rcases mem_keys_updateEntry c a v d h' with rfl | h''
      · exact Or.inr (by simp)
      · exact Or.inl h''
    · exact Or.inr (by simp [h'])

theorem mem_keys_dictOfPairs {κ α : Type} [DecidableEq κ] (a : κ)
    (pairs : List (κ × α)) (h : a ∈ (dictOfPairs pairs).map Prod.fst) :
    a ∈ pairs.map Prod.fst := by
  have : dictOfPairs pairs = dictUpdate [] pairs := rfl
  rw [this] at h
  rcases mem_keys_dictUpdate a pairs [] h with h' | h'
  · simp at h'
  · exact h'

theorem lookupEntry_dictUpdate_of_not_mem {κ α : Type} [DecidableEq κ] (k : κ)
    (other d : List (κ × α)) (h : k ∉ other.map Prod.fst) :
    lookupEntry k (dictUpdate d other) = lookupEntry k d := by
  induction other generalizing d with
  | nil => rfl
  | cons hd tl ih =>
    obtain ⟨c, v⟩ := hd
    simp only [List.map_cons, List.mem_cons] at h
    push_neg at h
    have hstep : dictUpdate d ((c, v) :: tl) = dictUpdate (updateEntry c v d) tl := rfl
    rw [hstep, ih (updateEntry c v d) h.2, lookupEntry_updateEntry,
      if_neg (fun hck : c = k => h.1 hck.symm)]

theorem lookupEntry_dictUpdate_of_nodup {κ α : Type} [DecidableEq κ] (k : κ) (v : α)
    (other d : List (κ × α)) (hnd : (other.map Prod.fst).Nodup)
    (h : lookupEntry k other = some v) :
    lookupEntry k (dictUpdate d other) = some v := by
  induction other generalizing d with
  | nil => simp [lookupEntry] at h
  | cons hd tl ih =>
    obtain ⟨c, w⟩ := hd
    simp only [List.map_cons, List.nodup_cons] at hnd
    have hstep : dictUpdate d ((c, w) :: tl) = dictUpdate (updateEntry c w d) tl := rfl
    rw [hstep]
    by_cases hck : c = k
    · subst hck
      have hwv : w = v := by simpa [lookupEntry] using h
      subst hwv
      rw [lookupEntry_dictUpdate_of_not_mem _ _ _ hnd.1, lookupEntry_updateEntry,
        if_pos rfl]
    · simp only [lookupEntry, if_neg hck] at h
      exact ih (updateEntry c w d) hnd.2 h

theorem updateEntry_eq_append_of_not_mem {κ α : Type} [DecidableEq κ] (k : κ) (v : α)
    (d : List (κ × α)) (h : k ∉ d.map Prod.fst) :
    updateEntry k v d = d ++ [(k, v)] := by
  induction d with
  | nil => rfl
  | cons hd tl ih =>
    obtain ⟨c, w⟩ := hd
    simp only [List.map_cons, List.mem_cons] at h
    push_neg at h
    have hck : ¬c = k := fun hh => h.1 hh.symm
    simp [updateEntry, hck, ih h.2]

theorem dictUpdate_eq_append_of_disjoint {κ α : Type} [DecidableEq κ]
    (pairs d : List (κ × α)) (hnd : (pairs.map Prod.fst).Nodup)
    (hdisj : ∀ a ∈ pairs.map Prod.fst, a ∉ d.map Prod.fst) :
    dictUpdate d pairs = d ++ pairs := by
  induction pairs generalizing d with
  | nil => simp [dictUpdate]
  | cons hd tl ih =>
    obtain ⟨c, v⟩ := hd
    simp only [List.map_cons, List.nodup_cons] at hnd
    have hstep : dictUpdate d ((c, v) :: tl) = dictUpdate (updateEntry c v d) tl := rfl
    have hc : c ∉ d.map Prod.fst := hdisj c (by simp)
    have hdisj' : ∀ a ∈ tl.map Prod.fst, a ∉ (d ++ [(c, v)]).map Prod.fst := by
      intro a ha
      simp only [List.map_append, List.mem_append, List.map_cons, List.map_nil,
        List.mem_singleton, not_or]
      refine ⟨fun had => hdisj a (by simp [ha]) had, ?_⟩
      rintro rfl
      exact hnd.1 ha
    rw [hstep, updateEntry_eq_append_of_not_mem c v d hc, ih (d ++ [(c, v)]) hnd.2 hdisj']
    simp

theorem dictOfPairs_eq_self_of_nodup {κ α : Type} [DecidableEq κ]
    (pairs : List (κ × α)) (hnd : (pairs.map Prod.fst).Nodup) :
    dictOfPairs pairs = pairs := by
  have : dictOfPairs pairs = dictUpdate [] pairs := rfl
  rw [this, dictUpdate_eq_append_of_disjoint pairs [] hnd (by simp)]
  simp

theorem listIndex_eq_none_iff {α : Type} [DecidableEq α] (x : α) (l : List α) :
    listIndex x l = Option.none ↔ x ∉ l := by
  induction l with
  | nil => simp [listIndex]
  | cons hd tl ih =>
    simp only [listIndex, List.mem_cons]
    by_cases hx : hd = x
    · simp [hx]
    · have hx' : ¬x = hd := fun hh => hx hh.symm
      cases h : listIndex x tl with
      | none => simp [hx, hx', ih.mp h]
      | some i =>
        have hmem : x ∈ tl := by
          by_contra hmem
          rw [ih.mpr hmem] at h
          cases h
        simp [hx, hmem]

theorem listIndex_getElem {α : Type} [DecidableEq α] (x : α) (l : List α) (i : Nat)
    (h : listIndex x l = some i) : l[i]? = some x := by
  induction l generalizing i with
  | nil => cases h
  | cons hd tl ih =>
    by_cases hx : hd = x
    · subst hx
      simp only [listIndex, if_pos rfl] at h
      cases h
      simp
    · simp only [listIndex, if_neg hx] at h
      cases hidx : listIndex x tl with
      | none => rw [hidx] at h; cases h
      | some j =>
        rw [hidx] at h
        cases h
        simpa using ih j hidx

theorem listIndex_lt_length {α : Type} [DecidableEq α] (x : α) (l : List α) (i : Nat)
    (h : listIndex x l = some i) : i < l.length := by
  have := listIndex_getElem x l i h
  exact (List.getElem?_eq_some_iff.mp this).1

theorem listIndex_isSome_of_mem {α : Type} [DecidableEq α] (x : α) (l : List α)
    (h : x ∈ l) : ∃ i, listIndex x l = some i := by
  cases hidx : listIndex x l with
  | none => exact absurd h ((listIndex_eq_none_iff x l).mp hidx)
  | some i => exact ⟨i, rfl⟩

theorem pyJsonLoads_error_cases (v : PyVal) (e : PyErr) (h : pyJsonLoads v = Except.error e) :
    e = PyErr.jsonDecodeError ∨ e = PyErr.typeError := by
  cases v <;> simp only [pyJsonLoads] at h <;>
    try (exact Or.inr (Except.error.inj h).symm)
  case str s =>
    rcases hp : parseVal (4 * s.toList.length + 4) s.toList with _ | ⟨w, rem⟩ <;>
      simp only [hp] at h
    · exact Or.inl (Except.error.inj h).symm
    · by_cases hw : jsonSkipWs rem = []
      · simp only [if_pos hw] at h
        exact Except.noConfusion h
      · simp only [if_neg hw] at h
        exact Or.inl (Except.error.inj h).symm

theorem transform_to_dict_if_json_eq_run (v : PyVal) :
    transform_to_dict_if_json v = Except.ok (transformRun v) := by
  unfold transform_to_dict_if_json transformRun
  rcases hp : pyJsonLoads v with e | w
  · rcases pyJsonLoads_error_cases v e hp with rfl | rfl <;> rfl
  · rfl

example : transformRun (PyVal.str "3") = PyVal.int 3 := by rfl

example : transformRun (PyVal.str "sale") = PyVal.str "sale" := by rfl

example : transformRun PyVal.none = PyVal.none := by rfl

example :
    transformRun (PyVal.str "\x7b\"a\": 1\x7d") =
      PyVal.dictCons "a" (PyVal.int 1) PyVal.dictNil := by rfl

theorem event_vals_eq (r : WALRow) :
    EventV2DataRow.get_insertable_values r =
      [("event_id", colGet r "event_id"), ("flow_id", colGet r "flow_id"),
        ("created_at", colGet r "created_at"),
        ("transaction_lifecycle_event", colGet r "transaction_lifecycle_event"),
        ("decline_reason", colGet r "error_details.decline_reason"),
        ("decline_type", colGet r "error_details.decline_type")] := rfl

theorem tx_vals_eq (r : WALRow) :
    TransactionsRow.get_insertable_values r =
      [("transaction_id", colGet r "transaction_id"),
        ("transaction_type", colGet r "transaction_type"),
        ("created_at", colGet r "created_at"), ("amount", colGet r "amount"),
        ("currency_code", colGet r "currency_code"),
        ("processor_merchant_account_id",
          colGet r "processor_merchant_account_id")] := rfl

theorem req_vals_eq (r : WALRow) :
    TransactionRequestsRow.get_insertable_values r =
      [("payment_method", colGet r "vault_options.payment_method")] := rfl

theorem pitd_vals_eq (r : WALRow) :
    PaymentInstrumentTokenDataRow.get_insertable_values r =
      [("three_d_secure_authentication", colGet r "three_d_secure_authentication"),
        ("payment_instrument_type", colGet r "payment_instrument_type"),
        ("customer_id", colGet r "vault_data.customer_id")] := rfl

theorem keys_event_vals (r : WALRow) :
    (EventV2DataRow.get_insertable_values r).map Prod.fst =
      ["event_id", "flow_id", "created_at", "transaction_lifecycle_event",
        "decline_reason", "decline_type"] := rfl

theorem keys_tx_vals (r : WALRow) :
    (TransactionsRow.get_insertable_values r).map Prod.fst =
      ["transaction_id", "transaction_type", "created_at", "amount",
        "currency_code", "processor_merchant_account_id"] := rfl

theorem keys_req_vals (r : WALRow) :
    (TransactionRequestsRow.get_insertable_values r).map Prod.fst =
      ["payment_method"] := rfl

theorem keys_pitd_vals (r : WALRow) :
    (PaymentInstrumentTokenDataRow.get_insertable_values r).map Prod.fst =
      ["three_d_secure_authentication", "payment_instrument_type", "customer_id"] := rfl

/-- `mergeEventDict` rewritten with one combined case split on the
transaction-request lookup (the source consults it twice: once for the
merge, once for the token key). -/
theorem mergeEventDict_eq_match (ev : WALRow) (tx tr pitd : List (PyVal × WALRow)) :
    mergeEventDict ev tx tr pitd =
      (let m1 := EventV2DataRow.get_insertable_values ev
      let m2 :=
        match lookupEntry (eventTxKey ev) tx with
        | some t => dictUpdate m1 (TransactionsRow.get_insertable_values t)
        | Option.none => m1
      match lookupEntry (eventFlowKey ev) tr with
      | some t =>
        (match lookupEntry (rowTokenKey t) pitd with
        | some p =>
          dictUpdate (dictUpdate m2 (TransactionRequestsRow.get_insertable_values t))
            (PaymentInstrumentTokenDataRow.get_insertable_values p)
        | Option.none =>
          dictUpdate m2 (TransactionRequestsRow.get_insertable_values t))
      | Option.none => m2) := by
  unfold mergeEventDict
  cases lookupEntry (eventFlowKey ev) tr <;> rfl

theorem lookupEntry_isSome_of_mem_keys {κ α : Type} [DecidableEq κ] (k : κ)
    (m : List (κ × α)) (h : k ∈ m.map Prod.fst) : ∃ v, lookupEntry k m = some v := by
  cases hl : lookupEntry k m with
  | none =>
    induction m with
    | nil => simp at h
    | cons hd tl ih =>
      obtain ⟨a, b⟩ := hd
      by_cases hak : a = k
      · simp [lookupEntry, hak] at hl
      · simp only [lookupEntry, if_neg hak] at hl
        simp only [List.map_cons, List.mem_cons] at h
        rcases h with rfl | h
        · exact absurd rfl hak
        · exact ih h hl
  | some v => exact ⟨v, rfl⟩

/-- When the transaction hop matches row `t`, any output field that only
the transaction extraction produces reads its value from `t`'s
extraction, whatever the later hops do. -/
theorem lookupEntry_mergeEventDict_of_tx (ev : WALRow) (tx tr pitd : List (PyVal × WALRow))
    (t : WALRow) (fname : String) (htx : lookupEntry (eventTxKey ev) tx = some t)
    (hmem : fname ∈
      (["transaction_id", "transaction_type", "created_at", "amount",
        "currency_code", "processor_merchant_account_id"] : List String))
    (hreq : fname ∉ (["payment_method"] : List String))
    (hpitd : fname ∉
      (["three_d_secure_authentication", "payment_instrument_type",
        "customer_id"] : List String)) :
    lookupEntry fname (mergeEventDict ev tx tr pitd) =
      lookupEntry fname (TransactionsRow.get_insertable_values t) := by
  have hnd : ((TransactionsRow.get_insertable_values t).map Prod.fst).Nodup := by
    rw [keys_tx_vals]; decide
  have hmemk : fname ∈ (TransactionsRow.get_insertable_values t).map Prod.fst := by
    rw [keys_tx_vals]; exact hmem
  obtain ⟨v, hv⟩ := lookupEntry_isSome_of_mem_keys _ _ hmemk
  have hm2 :
      lookupEntry fname
        (dictUpdate (EventV2DataRow.get_insertable_values ev)
          (TransactionsRow.get_insertable_values t)) = some v :=
    lookupEntry_dictUpdate_of_nodup _ _ _ _ hnd hv
  have hreq' : ∀ t2 : WALRow,
      fname ∉ (TransactionRequestsRow.get_insertable_values t2).map Prod.fst := by
    intro t2; rw [keys_req_vals]; exact hreq
  have hpitd' : ∀ p : WALRow,
      fname ∉ (PaymentInstrumentTokenDataRow.get_insertable_values p).map Prod.fst := by
    intro p; rw [keys_pitd_vals]; exact hpitd
  rw [mergeEventDict_eq_match]
  simp only [htx]
  cases htr : lookupEntry (eventFlowKey ev) tr with
  | none => dsimp only; rw [hm2, hv]
  | some t2 =>
    dsimp only
    cases hpi : lookupEntry (rowTokenKey t2) pitd with
    | none =>
      dsimp only
      rw [lookupEntry_dictUpdate_of_not_mem _ _ _ (hreq' t2), hm2, hv]
    | some p =>
      dsimp only
      rw [lookupEntry_dictUpdate_of_not_mem _ _ _ (hpitd' p),
        lookupEntry_dictUpdate_of_not_mem _ _ _ (hreq' t2), hm2, hv]

/-- Every key of the accumulating merged dict is a field name of
`InsertableRow`, so `InsertableRow(**merged_row)` cannot raise. -/
theorem mem_keys_mergeEventDict (ev : WALRow) (tx tr pitd : List (PyVal × WALRow))
    (a : String) (ha : a ∈ (mergeEventDict ev tx tr pitd).map Prod.fst) :
    a ∈ insertableFieldNames := by
  have hev : ∀ b, b ∈ (EventV2DataRow.get_insertable_values ev).map Prod.fst →
      b ∈ insertableFieldNames := by
    intro b hb; rw [keys_event_vals] at hb; fin_cases hb <;> decide
  have htxk : ∀ t : WALRow, ∀ b, b ∈ (TransactionsRow.get_insertable_values t).map Prod.fst →
      b ∈ insertableFieldNames := by
    intro t b hb; rw [keys_tx_vals] at hb; fin_cases hb <;> decide
  have hreqk : ∀ t : WALRow, ∀ b,
      b ∈ (TransactionRequestsRow.get_insertable_values t).map Prod.fst →
      b ∈ insertableFieldNames := by
    intro t b hb; rw [keys_req_vals] at hb; fin_cases hb; decide
  have hpitdk : ∀ p : WALRow, ∀ b,
      b ∈ (PaymentInstrumentTokenDataRow.get_insertable_values p).map Prod.fst →
      b ∈ insertableFieldNames := by
    intro p b hb; rw [keys_pitd_vals] at hb; fin_cases hb <;> decide
  rw [mergeEventDict_eq_match] at ha
  cases htx : lookupEntry (eventTxKey ev) tx with
  | none =>
    simp only [htx] at ha
    cases htr : lookupEntry (eventFlowKey ev) tr with
    | none =>
      simp only [htr] at ha
      exact hev a ha
    | some t2 =>
      simp only [htr] at ha
      cases hpi : lookupEntry (rowTokenKey t2) pitd with
      | none =>
        simp only [hpi] at ha
        rcases mem_keys_dictUpdate _ _ _ ha with h | h
        · exact hev a h
        · exact hreqk t2 a h
      | some p =>
        simp only [hpi] at ha
        rcases mem_keys_dictUpdate _ _ _ ha with h | h
        · rcases mem_keys_dictUpdate _ _ _ h with h' | h'
          · exact hev a h'
          · exact hreqk t2 a h'
        · exact hpitdk p a h
  | some t =>
    simp only [htx] at ha
    cases htr : lookupEntry (eventFlowKey ev) tr with
    | none =>
      simp only [htr] at ha
      rcases mem_keys_dictUpdate _ _ _ ha with h | h
      · exact hev a h
      · exact htxk t a h
    | some t2 =>
      simp only [htr] at ha
      cases hpi : lookupEntry (rowTokenKey t2) pitd with
      | none =>
        simp only [hpi] at ha
        rcases mem_keys_dictUpdate _ _ _ ha with h | h
        · rcases mem_keys_dictUpdate _ _ _ h with h' | h'
          · exact hev a h'
          · exact htxk t a h'
        · exact hreqk t2 a h
      | some p =>
        simp only [hpi] at ha
        rcases mem_keys_dictUpdate _ _ _ ha with h | h
        · rcases mem_keys_dictUpdate _ _ _ h with h' | h'
          · rcases mem_keys_dictUpdate _ _ _ h' with h'' | h''
            · exact hev a h''
            · exact htxk t a h''
          · exact hreqk t2 a h'
        · exact hpitdk p a h

/-- `InsertableRow(**merged_row)` succeeds for every event row and any
index contents: every key of the merged dict is a dataclass field. -/
theorem mkInsertableRow_mergeEventDict (ev : WALRow) (tx tr pitd : List (PyVal × WALRow)) :
    mkInsertableRow (mergeEventDict ev tx tr pitd) =
      Except.ok (mergeEventRowFun ev tx tr pitd) := by
  unfold mergeEventRowFun mkInsertableRow
  have hall : (mergeEventDict ev tx tr pitd).all
      (fun kv => insertableFieldNames.contains kv.1) = true := by
    rw [List.all_eq_true]
    intro kv hkv
    exact List.elem_eq_true_of_mem
      (mem_keys_mergeEventDict ev tx tr pitd kv.1 (List.mem_map_of_mem Prod.fst hkv))
  rw [if_pos hall]

theorem dictGet_eq_of_hashable {α : Type} (k : PyVal) (d : List (PyVal × α))
    (h : pyHashable k = true) : dictGet k d = Except.ok (lookupEntry k d) := by
  unfold dictGet
  rw [if_pos h]

/-- With hashable lookup keys, the loop body succeeds and evaluates to
`mergeEventRowFun`. -/
theorem mergeEventRow_ok_of_hashable (ev : WALRow) (tx tr pitd : List (PyVal × WALRow))
    (h1 : pyHashable (eventTxKey ev) = true) (h2 : pyHashable (eventFlowKey ev) = true)
    (h3 : ∀ t, lookupEntry (eventFlowKey ev) tr = some t →
      pyHashable (rowTokenKey t) = true) :
    mergeEventRow ev tx tr pitd = Except.ok (mergeEventRowFun ev tx tr pitd) := by
  unfold mergeEventRow
  rw [dictGet_eq_of_hashable _ _ h1]
  dsimp only
  rw [dictGet_eq_of_hashable _ _ h2]
  dsimp only
  cases hflow : lookupEntry (eventFlowKey ev) tr with
  | none =>
    dsimp only
    convert mkInsertableRow_mergeEventDict ev tx tr pitd using 2
    rw [mergeEventDict_eq_match]
    simp only [hflow]
  | some t =>
    dsimp only
    rw [dictGet_eq_of_hashable _ _ (h3 t hflow)]
    dsimp only
    convert mkInsertableRow_mergeEventDict ev tx tr pitd using 2
    rw [mergeEventDict_eq_match]
    simp only [hflow]

/-- The three hashability facts packed into `eventLookupKeysHashable`. -/
theorem eventLookupKeysHashable_iff (ev : WALRow) (trIdx : List (PyVal × WALRow)) :
    eventLookupKeysHashable ev trIdx = true ↔
      pyHashable (eventTxKey ev) = true ∧ pyHashable (eventFlowKey ev) = true ∧
        ∀ t, lookupEntry (eventFlowKey ev) trIdx = some t →
          pyHashable (rowTokenKey t) = true := by
  unfold eventLookupKeysHashable
  cases hflow : lookupEntry (eventFlowKey ev) trIdx with
  | none => simp [hflow]
  | some t =>
    simp only [Bool.and_eq_true, and_assoc, and_congr_right_iff]
    intro _ _
    constructor
    · intro ht t' ht'
      cases ht'
      exact ht
    · intro hall
      exact hall t rfl

/-- The merge loop appends exactly one row per event, in list order,
when every event's lookup keys are hashable. -/
theorem mergeLoop_eq (tx tr pitd : List (PyVal × WALRow)) (acc : List InsertableRow)
    (evs : List WALRow) (h : ∀ ev ∈ evs, eventLookupKeysHashable ev tr = true) :
    mergeLoop tx tr pitd acc evs =
      Except.ok (acc ++ evs.map fun ev => mergeEventRowFun ev tx tr pitd) := by
  induction evs generalizing acc with
  | nil => simp [mergeLoop]
  | cons ev evs ih =>
    obtain ⟨hh1, hh2, hh3⟩ :=
      (eventLookupKeysHashable_iff ev tr).mp (h ev (by simp))
    rw [mergeLoop, mergeEventRow_ok_of_hashable ev tx tr pitd hh1 hh2 hh3]
    dsimp only
    rw [ih (acc ++ [mergeEventRowFun ev tx tr pitd]) (fun e he => h e (by simp [he]))]
    simp

/-- `merge_insertable_rows` appends the per-event merge of each event
row, in event-list order, when every event's lookup keys are
hashable. -/
theorem merge_insertable_rows_eq (s : ProcessorState)
    (h : ∀ ev ∈ s.event_v2_data_rows,
      eventLookupKeysHashable ev s.transaction_request_rows = true) :
    merge_insertable_rows s =
      Except.ok { s with insertable_rows := s.insertable_rows ++
        (s.event_v2_data_rows.map fun ev =>
          mergeEventRowFun ev s.transaction_rows s.transaction_request_rows
            s.payment_instrument_token_data_rows) } := by
  unfold merge_insertable_rows
  rw [mergeLoop_eq _ _ _ _ _ h]

/-- When the transaction-request lookup misses, the merged dict is just
the event extraction plus the (possible) transaction merge: the token
index is never consulted. -/
theorem mergeEventDict_flow_none (ev : WALRow) (tx tr pitd : List (PyVal × WALRow))
    (h : lookupEntry (eventFlowKey ev) tr = Option.none) :
    mergeEventDict ev tx tr pitd =
      (match lookupEntry (eventTxKey ev) tx with
      | some t =>
        dictUpdate (EventV2DataRow.get_insertable_values ev)
          (TransactionsRow.get_insertable_values t)
      | Option.none => EventV2DataRow.get_insertable_values ev) := by
  rw [mergeEventDict_eq_match]
  simp only [h]

/-- When the transaction-request lookup finds `t2`, the merged dict
depends on the token index only through the lookup at `t2`'s own
`token_id`. -/
theorem mergeEventDict_flow_some (ev : WALRow) (tx tr pitd : List (PyVal × WALRow))
    (t2 : WALRow) (h : lookupEntry (eventFlowKey ev) tr = some t2) :
    mergeEventDict ev tx tr pitd =
      (let m2 :=
        match lookupEntry (eventTxKey ev) tx with
        | some t =>
          dictUpdate (EventV2DataRow.get_insertable_values ev)
            (TransactionsRow.get_insertable_values t)
        | Option.none => EventV2DataRow.get_insertable_values ev
      match lookupEntry (rowTokenKey t2) pitd with
      | some p =>
        dictUpdate (dictUpdate m2 (TransactionRequestsRow.get_insertable_values t2))
          (PaymentInstrumentTokenDataRow.get_insertable_values p)
      | Option.none => dictUpdate m2 (TransactionRequestsRow.get_insertable_values t2)) := by
  rw [mergeEventDict_eq_match]
  simp only [h]

/-- When the transaction-request lookup misses, none of the three
PaymentInstrumentTokenData-produced output fields occurs in the merged
dict. -/
theorem lookup_pitd_field_none_of_flow_none (ev : WALRow)
    (tx tr pitd : List (PyVal × WALRow)) (h : lookupEntry (eventFlowKey ev) tr = Option.none)
    (fname : String)
    (hf : fname ∈
      (["three_d_secure_authentication", "payment_instrument_type",
        "customer_id"] : List String)) :
    lookupEntry fname (mergeEventDict ev tx tr pitd) = Option.none := by
  have hev : fname ∉ (EventV2DataRow.get_insertable_values ev).map Prod.fst := by
    rw [keys_event_vals]
    fin_cases hf <;> decide
  rw [mergeEventDict_flow_none ev tx tr pitd h]
  cases htx : lookupEntry (eventTxKey ev) tx with
  | none => exact lookupEntry_eq_none_of_not_mem_keys _ _ hev
  | some t =>
    dsimp only
    have htxn : fname ∉ (TransactionsRow.get_insertable_values t).map Prod.fst := by
      rw [keys_tx_vals]
      fin_cases hf <;> decide
    rw [lookupEntry_dictUpdate_of_not_mem _ _ _ htxn]
    exact lookupEntry_eq_none_of_not_mem_keys _ _ hev

theorem recordHasKey_iff (tbl keyCol : String) (k : PyVal) (r : ChangeRecord) :
    recordHasKey tbl keyCol k r = true ↔
      r.table = tbl ∧ getJoinKeyBy keyCol (WALRow.from_dict r) = Except.ok k := by
  unfold recordHasKey
  cases hg : getJoinKeyBy keyCol (WALRow.from_dict r) <;> simp [hg]

theorem lastRecordWith_cons (tbl keyCol : String) (k : PyVal) (r : ChangeRecord)
    (rs : List ChangeRecord) :
    lastRecordWith tbl keyCol k (r :: rs) =
      (match lastRecordWith tbl keyCol k rs with
      | some r' => some r'
      | Option.none => if recordHasKey tbl keyCol k r then some r else Option.none) := rfl

theorem lastRecordWith_cons_false (tbl keyCol : String) (k : PyVal) (r : ChangeRecord)
    (rs : List ChangeRecord) (h : recordHasKey tbl keyCol k r = false) :
    lastRecordWith tbl keyCol k (r :: rs) = lastRecordWith tbl keyCol k rs := by
  rw [lastRecordWith_cons, h]
  cases lastRecordWith tbl keyCol k rs <;> simp

theorem lastRecordWith_cons_true (tbl keyCol : String) (k : PyVal) (r : ChangeRecord)
    (rs : List ChangeRecord) (h : recordHasKey tbl keyCol k r = true) :
    lastRecordWith tbl keyCol k (r :: rs) =
      some ((lastRecordWith tbl keyCol k rs).getD r) := by
  rw [lastRecordWith_cons, h]
  cases lastRecordWith tbl keyCol k rs <;> simp

theorem recordHasKey_false_of_table (tbl tbl' keyCol : String) (k : PyVal)
    (r : ChangeRecord) (hr : r.table = tbl') (hne : tbl' ≠ tbl) :
    recordHasKey tbl keyCol k r = false := by
  rw [Bool.eq_false_iff]
  intro hc
  exact hne (hr ▸ (recordHasKey_iff tbl keyCol k r).mp hc).1

/-- What `load` leaves in the three indexes: for every key, the entry is
the parsed last record of that table with that join key, and keys no
record carries are left as the starting state had them. -/
theorem load_lookup (rs : List ChangeRecord) (s st : ProcessorState)
    (h : load s rs = Except.ok st) (k : PyVal) :
    (lookupEntry k st.transaction_rows =
      (match lastRecordWith "transaction" "transaction_id" k rs with
      | some r => some (WALRow.from_dict r)
      | Option.none => lookupEntry k s.transaction_rows)) ∧
    (lookupEntry k st.transaction_request_rows =
      (match lastRecordWith "transaction_request" "flow_id" k rs with
      | some r => some (WALRow.from_dict r)
      | Option.none => lookupEntry k s.transaction_request_rows)) ∧
    (lookupEntry k st.payment_instrument_token_data_rows =
      (match lastRecordWith "payment_instrument_token_data" "token_id" k rs with
      | some r => some (WALRow.from_dict r)
      | Option.none => lookupEntry k s.payment_instrument_token_data_rows)) := by
  induction rs generalizing s with
  | nil =>
    cases h
    exact ⟨rfl, rfl, rfl⟩
  | cons r rs ih =>
    rw [load] at h
    cases hstep : loadStep s r with
    | error e => rw [hstep] at h; cases h
    | ok s1 =>
      rw [hstep] at h
      obtain ⟨ih1, ih2, ih3⟩ := ih s1 h
      unfold loadStep at hstep
      by_cases h1 : r.table = "event_v2_data"
      · rw [if_pos h1] at hstep
        cases hstep
        refine ⟨?_, ?_, ?_⟩
        · rw [lastRecordWith_cons_false _ _ _ _ _
            (recordHasKey_false_of_table _ _ _ _ _ h1 (by decide))]
          exact ih1
        · rw [lastRecordWith_cons_false _ _ _ _ _
            (recordHasKey_false_of_table _ _ _ _ _ h1 (by decide))]
          exact ih2
        · rw [lastRecordWith_cons_false _ _ _ _ _
            (recordHasKey_false_of_table _ _ _ _ _ h1 (by decide))]
          exact ih3
      · rw [if_neg h1] at hstep
        by_cases h2 : r.table = "transaction"
        · rw [if_pos h2] at hstep
          cases hjk : TransactionsRow.get_join_key (WALRow.from_dict r) with
          | error e => rw [hjk] at hstep; cases hstep
          | ok k' =>
            rw [hjk] at hstep
            cases hstep
            rw [lookupEntry_updateEntry] at ih1
            refine ⟨?_, ?_, ?_⟩
            · by_cases hkk : k' = k
              · subst hkk
                rw [lastRecordWith_cons_true _ _ _ _ _
                  ((recordHasKey_iff _ _ _ _).mpr ⟨h2, show getJoinKeyBy "transaction_id" (WALRow.from_dict r) = Except.ok k' from hjk⟩)]
                rw [ih1, if_pos rfl]
                cases lastRecordWith "transaction" "transaction_id" k' rs <;> simp
              · rw [lastRecordWith_cons_false _ _ _ _ _ ?_]
                · rw [ih1, if_neg hkk]
                · rw [Bool.eq_false_iff]
                  intro hc
                  have hok := ((recordHasKey_iff _ _ _ _).mp hc).2
                  rw [show getJoinKeyBy _ (WALRow.from_dict r) = _ from hjk] at hok
                  cases hok
                  exact hkk rfl
            · rw [lastRecordWith_cons_false _ _ _ _ _
                (recordHasKey_false_of_table _ _ _ _ _ h2 (by decide))]
              exact ih2
            · rw [lastRecordWith_cons_false _ _ _ _ _
                (recordHasKey_false_of_table _ _ _ _ _ h2 (by decide))]
              exact ih3
        · rw [if_neg h2] at hstep
          by_cases h3 : r.table = "transaction_request"
          · rw [if_pos h3] at hstep
            cases hjk : TransactionRequestsRow.get_join_key (WALRow.from_dict r) with
            | error e => rw [hjk] at hstep; cases hstep
            | ok k' =>
              rw [hjk] at hstep
              cases hstep
              rw [lookupEntry_updateEntry] at ih2
              refine ⟨?_, ?_, ?_⟩
              · rw [lastRecordWith_cons_false _ _ _ _ _
                  (recordHasKey_false_of_table _ _ _ _ _ h3 (by decide))]
                exact ih1
              · by_cases hkk : k' = k
                · subst hkk
                  rw [lastRecordWith_cons_true _ _ _ _ _
                    ((recordHasKey_iff _ _ _ _).mpr ⟨h3, show getJoinKeyBy "flow_id" (WALRow.from_dict r) = Except.ok k' from hjk⟩)]
                  rw [ih2, if_pos rfl]
                  cases lastRecordWith "transaction_request" "flow_id" k' rs <;> simp
                · rw [lastRecordWith_cons_false _ _ _ _ _ ?_]
                  · rw [ih2, if_neg hkk]
                  · rw [Bool.eq_false_iff]
                    intro hc
                    have hok := ((recordHasKey_iff _ _ _ _).mp hc).2
                    rw [show getJoinKeyBy _ (WALRow.from_dict r) = _ from hjk] at hok
                    cases hok
                    exact hkk rfl
              · rw [lastRecordWith_cons_false _ _ _ _ _
                  (recordHasKey_false_of_table _ _ _ _ _ h3 (by decide))]
                exact ih3
          · rw [if_neg h3] at hstep
            by_cases h4 : r.table = "payment_instrument_token_data"
            · rw [if_pos h4] at hstep
              cases hjk : PaymentInstrumentTokenDataRow.get_join_key (WALRow.from_dict r) with
              | error e => rw [hjk] at hstep; cases hstep
              | ok k' =>
                rw [hjk] at hstep
                cases hstep
                rw [lookupEntry_updateEntry] at ih3
                refine ⟨?_, ?_, ?_⟩
                · rw [lastRecordWith_cons_false _ _ _ _ _
                    (recordHasKey_false_of_table _ _ _ _ _ h4 (by decide))]
                  exact ih1
                · rw [lastRecordWith_cons_false _ _ _ _ _
                    (recordHasKey_false_of_table _ _ _ _ _ h4 (by decide))]
                  exact ih2
                · by_cases hkk : k' = k
                  · subst hkk
                    rw [lastRecordWith_cons_true _ _ _ _ _
                      ((recordHasKey_iff _ _ _ _).mpr ⟨h4, show getJoinKeyBy "token_id" (WALRow.from_dict r) = Except.ok k' from hjk⟩)]
                    rw [ih3, if_pos rfl]
                    cases lastRecordWith "payment_instrument_token_data" "token_id" k' rs <;>
                      simp
                  · rw [lastRecordWith_cons_false _ _ _ _ _ ?_]
                    · rw [ih3, if_neg hkk]
                    · rw [Bool.eq_false_iff]
                      intro hc
                      have hok := ((recordHasKey_iff _ _ _ _).mp hc).2
                      rw [show getJoinKeyBy _ (WALRow.from_dict r) = _ from hjk] at hok
                      cases hok
                      exact hkk rfl
            · rw [if_neg h4] at hstep
              cases hstep
              refine ⟨?_, ?_, ?_⟩
              · rw [lastRecordWith_cons_false _ _ _ _ _ ?_]
                · exact ih1
                · rw [Bool.eq_false_iff]
                  intro hc
                  exact h2 ((recordHasKey_iff _ _ _ _).mp hc).1
              · rw [lastRecordWith_cons_false _ _ _ _ _ ?_]
                · exact ih2
                · rw [Bool.eq_false_iff]
                  intro hc
                  exact h3 ((recordHasKey_iff _ _ _ _).mp hc).1
              · rw [lastRecordWith_cons_false _ _ _ _ _ ?_]
                · exact ih3
                · rw [Bool.eq_false_iff]
                  intro hc
                  exact h4 ((recordHasKey_iff _ _ _ _).mp hc).1

/-- Whether one `load` step succeeds depends only on the record, never
on the processor state. -/
theorem loadStep_ok_indep (s s' : ProcessorState) (r : ChangeRecord) (s1 : ProcessorState)
    (h : loadStep s r = Except.ok s1) : ∃ s1', loadStep s' r = Except.ok s1' := by
  unfold loadStep at h ⊢
  by_cases h1 : r.table = "event_v2_data"
  · rw [if_pos h1]
    exact ⟨_, rfl⟩
  · rw [if_neg h1] at h ⊢
    by_cases h2 : r.table = "transaction"
    · rw [if_pos h2] at h ⊢
      cases hjk : TransactionsRow.get_join_key (WALRow.from_dict r) with
      | error e => rw [hjk] at h; cases h
      | ok k => exact ⟨_, rfl⟩
    · rw [if_neg h2] at h ⊢
      by_cases h3 : r.table = "transaction_request"
      · rw [if_pos h3] at h ⊢
        cases hjk : TransactionRequestsRow.get_join_key (WALRow.from_dict r) with
        | error e => rw [hjk] at h; cases h
        | ok k => exact ⟨_, rfl⟩
      · rw [if_neg h3] at h ⊢
        by_cases h4 : r.table = "payment_instrument_token_data"
        · rw [if_pos h4] at h ⊢
          cases hjk : PaymentInstrumentTokenDataRow.get_join_key (WALRow.from_dict r) with
          | error e => rw [hjk] at h; cases h
          | ok k => exact ⟨_, rfl⟩
        · rw [if_neg h4]
          exact ⟨_, rfl⟩

/-- If one run of `load` over a batch succeeds, a rerun from any state
succeeds too. -/
theorem load_ok_indep (rs : List ChangeRecord) (s st s' : ProcessorState)
    (h : load s rs = Except.ok st) : ∃ st', load s' rs = Except.ok st' := by
  induction rs generalizing s s' with
  | nil => exact ⟨s', rfl⟩
  | cons r rs ih =>
    rw [load] at h ⊢
    cases hstep : loadStep s r with
    | error e => rw [hstep] at h; cases h
    | ok s1 =>
      rw [hstep] at h
      obtain ⟨s1', hstep'⟩ := loadStep_ok_indep s s' r s1 hstep
      rw [hstep']
      exact ih s1 s1' h

/-- When the key column occurs in `column_names` and the values list is
at least as long, `get_join_key` succeeds with the positionally aligned
element of `column_values` (at the first occurrence of the column). -/
theorem getJoinKeyBy_ok (keyCol : String) (row : WALRow)
    (hmem : keyCol ∈ row.column_names)
    (hlen : row.column_names.length ≤ row.column_values.length) :
    ∃ i v, listIndex keyCol row.column_names = some i ∧
      row.column_names[i]? = some keyCol ∧ row.column_values[i]? = some v ∧
      getJoinKeyBy keyCol row = Except.ok v := by
  obtain ⟨i, hi⟩ := listIndex_isSome_of_mem keyCol row.column_names hmem
  have hlt : i < row.column_names.length := listIndex_lt_length _ _ _ hi
  have hlt2 : i < row.column_values.length := lt_of_lt_of_le hlt hlen
  refine ⟨i, row.column_values[i], hi, listIndex_getElem _ _ _ hi,
    List.getElem?_eq_getElem hlt2, ?_⟩
  unfold getJoinKeyBy
  rw [hi]
  dsimp only
  rw [List.getElem?_eq_getElem hlt2]

/-- When the key column is absent from `column_names`, `get_join_key`
raises `ValueError` (from `list.index`). -/
theorem getJoinKeyBy_valueError (keyCol : String) (row : WALRow)
    (hmem : keyCol ∉ row.column_names) :
    getJoinKeyBy keyCol row = Except.error PyErr.valueError := by
  unfold getJoinKeyBy
  rw [(listIndex_eq_none_iff keyCol row.column_names).mpr hmem]

/-- A record of one of the three indexed tables whose key column is
missing makes its `load` step raise `ValueError`, for every state. -/
theorem loadStep_error_missing (s : ProcessorState) (r : ChangeRecord) (tbl keyCol : String)
    (htbl : (tbl = "transaction" ∧ keyCol = "transaction_id") ∨
      (tbl = "transaction_request" ∧ keyCol = "flow_id") ∨
      (tbl = "payment_instrument_token_data" ∧ keyCol = "token_id"))
    (hr : r.table = tbl) (hcol : keyCol ∉ r.columnnames) :
    loadStep s r = Except.error PyErr.valueError := by
  have hcol' : keyCol ∉ (WALRow.from_dict r).column_names := hcol
  have hjk := getJoinKeyBy_valueError keyCol (WALRow.from_dict r) hcol'
  unfold loadStep
  rcases htbl with ⟨rfl, rfl⟩ | ⟨rfl, rfl⟩ | ⟨rfl, rfl⟩
  · rw [if_neg (by rw [hr]; decide), if_pos hr,
      show TransactionsRow.get_join_key (WALRow.from_dict r) =
        Except.error PyErr.valueError from hjk]
  · rw [if_neg (by rw [hr]; decide), if_neg (by rw [hr]; decide), if_pos hr,
      show TransactionRequestsRow.get_join_key (WALRow.from_dict r) =
        Except.error PyErr.valueError from hjk]
  · rw [if_neg (by rw [hr]; decide), if_neg (by rw [hr]; decide),
      if_neg (by rw [hr]; decide), if_pos hr,
      show PaymentInstrumentTokenDataRow.get_join_key (WALRow.from_dict r) =
        Except.error PyErr.valueError from hjk]

/-- A record whose `load` step always raises makes the load of any batch
containing it fail. -/
theorem load_error_of_bad_record (rs : List ChangeRecord) (r : ChangeRecord)
    (hmem : r ∈ rs) (hbad : ∀ s, loadStep s r = Except.error PyErr.valueError) :
    ∀ s, ∃ e, load s rs = Except.error e := by
  induction rs with
  | nil => cases hmem
  | cons a rs ih =>
    intro s
    rw [load]
    rcases List.mem_cons.mp hmem with rfl | hmem'
    · rw [hbad s]
      exact ⟨_, rfl⟩
    · cases hstep : loadStep s a with
      | error e => exact ⟨e, rfl⟩
      | ok s1 => exact ih hmem' s1

theorem map_fst_zip_sublist {α β : Type} (l1 : List α) (l2 : List β) :
    ((l1.zip l2).map Prod.fst).Sublist l1 := by
  induction l1 generalizing l2 with
  | nil => simp
  | cons a l1 ih =>
    cases l2 with
    | nil => simp
    | cons b l2 => simpa using (ih l2).cons₂ a

/-- With distinct column names, the derived mapping of a parsed row has
exactly `min` of the two sequence lengths: a length mismatch silently
truncates to the shorter sequence. -/
theorem from_dict_mapping_length (data : ChangeRecord) (hnd : data.columnnames.Nodup) :
    (WALRow.from_dict data).column_names_values.length =
      min data.columnnames.length data.columnvalues.length := by
  show (dictOfPairs (data.columnnames.zip (data.columnvalues.map transformRun))).length = _
  have hsub := map_fst_zip_sublist data.columnnames (data.columnvalues.map transformRun)
  have hnd' :
      ((data.columnnames.zip (data.columnvalues.map transformRun)).map Prod.fst).Nodup :=
    List.Nodup.sublist hsub hnd
  rw [dictOfPairs_eq_self_of_nodup _ hnd', List.length_zip, List.length_map]

example :
    mergeEventRowFun
      ⟨PyVal.int 1, PyVal.int 1, "event_v2_data",
        ["event_id", "flow_id", "transaction_id"], [],
        [PyVal.int 1, PyVal.int 2, PyVal.int 2],
        [("event_id", PyVal.int 1), ("flow_id", PyVal.int 3),
          ("transaction_id", PyVal.int 2)]⟩
      [(PyVal.int 2,
        ⟨PyVal.int 2, PyVal.int 2, "transaction",
          ["transaction_id", "transaction_type"], [],
          [PyVal.int 2, PyVal.str "sale"],
          [("transaction_id", PyVal.int 2), ("transaction_type", PyVal.str "sale")]⟩)]
      [(PyVal.int 3,
        ⟨PyVal.int 3, PyVal.int 3, "transaction_request",
          ["flow_id", "vault_options.payment_method", "token_id"], [],
          [PyVal.int 2, PyVal.str "credit_card", PyVal.int 4],
          [("flow_id", PyVal.int 2),
            ("vault_options.payment_method", PyVal.str "credit_card"),
            ("token_id", PyVal.int 4)]⟩)]
      [(PyVal.int 4,
        ⟨PyVal.int 4, PyVal.int 4, "payment_instrument_token_data",
          ["token_id", "three_d_secure_authentication"], [],
          [PyVal.int 4, PyVal.str "authenticated"],
          [("token_id", PyVal.int 4),
            ("three_d_secure_authentication", PyVal.str "authenticated")]⟩)] =
      { event_id := PyVal.int 1, flow_id := PyVal.int 3,
        transaction_id := PyVal.int 2, transaction_type := PyVal.str "sale",
        payment_method := PyVal.str "credit_card",
        three_d_secure_authentication := PyVal.str "authenticated" } := by decide

/-! ### The claims -/

/-- C1: the PaymentInstrumentTokenData lookup is attempted only when the
TransactionRequest lookup (by the event's own `flow_id`) found a row,
and then only with that row's own `token_id`; when no TransactionRequest
row matches, the output row has no PaymentInstrumentTokenData-derived
fields set, even if the token index holds a coincidentally matching
key. -/
theorem claim_C1 (ev : WALRow) (tx tr pitd : List (PyVal × WALRow)) :
    (lookupEntry (eventFlowKey ev) tr = Option.none →
      (mergeEventRowFun ev tx tr pitd).three_d_secure_authentication = PyVal.none ∧
      (mergeEventRowFun ev tx tr pitd).payment_instrument_type = PyVal.none ∧
      (mergeEventRowFun ev tx tr pitd).customer_id = PyVal.none ∧
      mergeEventRowFun ev tx tr pitd = mergeEventRowFun ev tx tr []) ∧
    (∀ t2, lookupEntry (eventFlowKey ev) tr = some t2 →
      ∀ pitd', lookupEntry (rowTokenKey t2) pitd = lookupEntry (rowTokenKey t2) pitd' →
        mergeEventRowFun ev tx tr pitd = mergeEventRowFun ev tx tr pitd') := by
  constructor
  · intro h
    refine ⟨?_, ?_, ?_, ?_⟩
    · show (lookupEntry "three_d_secure_authentication"
          (mergeEventDict ev tx tr pitd)).getD PyVal.none = PyVal.none
      rw [lookup_pitd_field_none_of_flow_none ev tx tr pitd h _ (by decide)]
      rfl
    · show (lookupEntry "payment_instrument_type"
          (mergeEventDict ev tx tr pitd)).getD PyVal.none = PyVal.none
      rw [lookup_pitd_field_none_of_flow_none ev tx tr pitd h _ (by decide)]
      rfl
    · show (lookupEntry "customer_id"
          (mergeEventDict ev tx tr pitd)).getD PyVal.none = PyVal.none
      rw [lookup_pitd_field_none_of_flow_none ev tx tr pitd h _ (by decide)]
      rfl
    · unfold mergeEventRowFun
      rw [mergeEventDict_flow_none ev tx tr pitd h, mergeEventDict_flow_none ev tx tr [] h]
  · intro t2 h pitd' hag
    unfold mergeEventRowFun
    rw [mergeEventDict_flow_some ev tx tr pitd t2 h,
      mergeEventDict_flow_some ev tx tr pitd' t2 h, hag]

/-- Witness for C1 at a concrete event whose `flow_id` misses the
request index while the token index holds the coincidental key 3. -/
theorem claim_C1_witness :
    (mergeEventRowFun evFlowOnly [] [] [(PyVal.int 3, pitdCoincidental)]
      ).three_d_secure_authentication = PyVal.none ∧
    mergeEventRowFun evFlowOnly [] [] [(PyVal.int 3, pitdCoincidental)] =
      mergeEventRowFun evFlowOnly [] [] [] :=
  ⟨((claim_C1 evFlowOnly [] [] [(PyVal.int 3, pitdCoincidental)]).1 (by rfl)).1,
    ((claim_C1 evFlowOnly [] [] [(PyVal.int 3, pitdCoincidental)]).1 (by rfl)).2.2.2⟩

/-- C2 counterexample: one event row whose `transaction_id` value is a
decoded JSON object — its transaction lookup key is an unhashable dict,
so the merge loop raises `TypeError` at `dict.get` and appends *no*
output row, refuting "exactly one Output Row per Event row, for every
list of Event rows, regardless of the hops". -/
theorem claim_C2_counterexample :
    merge_insertable_rows stateDictKey = Except.error PyErr.typeError ∧
    stateDictKey.event_v2_data_rows.length = 1 :=
  ⟨by rfl, by rfl⟩

/-- C2 (amended): the join phase appends exactly one output row per
event row, in event-list order, whatever the three indexes contain —
provided every event's lookup keys (its transformed `transaction_id`
and `flow_id` values, and the matched transaction-request row's
`token_id`) are hashable; an event whose lookup key is a decoded list
or dict makes the join phase raise `TypeError` instead. -/
theorem claim_C2 (s : ProcessorState)
    (h : ∀ ev ∈ s.event_v2_data_rows,
      eventLookupKeysHashable ev s.transaction_request_rows = true) :
    ∃ s', merge_insertable_rows s = Except.ok s' ∧
      s'.insertable_rows = s.insertable_rows ++
        (s.event_v2_data_rows.map fun ev =>
          mergeEventRowFun ev s.transaction_rows s.transaction_request_rows
            s.payment_instrument_token_data_rows) ∧
      s'.insertable_rows.length =
        s.insertable_rows.length + s.event_v2_data_rows.length := by
  refine ⟨_, merge_insertable_rows_eq s h, rfl, ?_⟩
  simp

/-- Witness for C2 at a one-event state with integer key values. -/
theorem claim_C2_witness :
    ∃ s', merge_insertable_rows statePlainEv = Except.ok s' ∧
      s'.insertable_rows = statePlainEv.insertable_rows ++
        (statePlainEv.event_v2_data_rows.map fun ev =>
          mergeEventRowFun ev statePlainEv.transaction_rows
            statePlainEv.transaction_request_rows
            statePlainEv.payment_instrument_token_data_rows) ∧
      s'.insertable_rows.length =
        statePlainEv.insertable_rows.length + statePlainEv.event_v2_data_rows.length :=
  claim_C2 statePlainEv (by decide)

/-- C3 counterexample, two refutations of the claim as stated.  First,
a transaction row whose null join key is indexed under `None` is merged
into an event that has no `transaction_id` column at all — the
null-keyed hop is not skipped, so such an event does not "merge nothing
from that hop".  Second, the join phase is not error-free: an event
whose `transaction_id` value is a decoded JSON object raises
`TypeError` at the `dict.get` lookup. -/
theorem claim_C3_counterexample :
    load emptyProcessor [nullTxRecC3, evNoTxRecC3] = Except.ok loadedC3 ∧
    lookupEntry "transaction_id" (WALRow.from_dict evNoTxRecC3).column_names_values =
      Option.none ∧
    merge_insertable_rows loadedC3 =
      Except.ok { loadedC3 with insertable_rows :=
        [{ event_id := PyVal.int 1, transaction_type := PyVal.str "sale" }] } ∧
    mergeEventRow (WALRow.from_dict dictKeyEvRec) [] [] [] =
      Except.error PyErr.typeError :=
  ⟨by rfl, by rfl, by rfl, by rfl⟩

/-- C3 (amended): a hop whose *lookup key* (the event's value, or `None`
when the column is absent) is hashable and is not a key of the index
contributes no fields and raises no error, and with all lookup keys
hashable the loop body never fails; an unhashable (decoded list- or
dict-valued) lookup key raises `TypeError`.  An absent or null key
behaves as the key `None`, which can match a row whose own join key was
null — such a hop IS merged, so the skip is guaranteed only when the
index has no entry under the lookup key. -/
theorem claim_C3 (ev : WALRow) (tx tr pitd : List (PyVal × WALRow)) :
    (pyHashable (eventTxKey ev) = true → pyHashable (eventFlowKey ev) = true →
      (∀ t, lookupEntry (eventFlowKey ev) tr = some t →
        pyHashable (rowTokenKey t) = true) →
      mergeEventRow ev tx tr pitd = Except.ok (mergeEventRowFun ev tx tr pitd)) ∧
    (lookupEntry (eventTxKey ev) tx = Option.none →
      mergeEventRowFun ev tx tr pitd = mergeEventRowFun ev [] tr pitd) ∧
    (lookupEntry (eventFlowKey ev) tr = Option.none →
      mergeEventRowFun ev tx tr pitd = mergeEventRowFun ev tx [] pitd) := by
  refine ⟨mergeEventRow_ok_of_hashable ev tx tr pitd, ?_, ?_⟩
  · intro h
    unfold mergeEventRowFun
    rw [mergeEventDict_eq_match, mergeEventDict_eq_match]
    simp only [h, lookupEntry_nil]
  · intro h
    unfold mergeEventRowFun
    rw [mergeEventDict_eq_match, mergeEventDict_eq_match]
    simp only [h, lookupEntry_nil]

/-- Witness for C3 at a concrete event whose `transaction_id` value 1 is
absent from a non-empty transaction index, with all keys hashable. -/
theorem claim_C3_witness :
    mergeEventRow evTxOne [(PyVal.int 5, txNoCreatedAt)] [] [] =
      Except.ok (mergeEventRowFun evTxOne [(PyVal.int 5, txNoCreatedAt)] [] []) ∧
    mergeEventRowFun evTxOne [(PyVal.int 5, txNoCreatedAt)] [] [] =
      mergeEventRowFun evTxOne [] [] [] :=
  ⟨(claim_C3 evTxOne [(PyVal.int 5, txNoCreatedAt)] [] []).1 (by rfl) (by rfl)
      (by intro t ht; cases ht),
    (claim_C3 evTxOne [(PyVal.int 5, txNoCreatedAt)] [] []).2.1 (by rfl)⟩

/-- C4 counterexample: a payload whose `columnnames` has length 2 and
`columnvalues` length 1 parses into a `Row` whose derived mapping is
silently truncated to the shorter sequence — no `MalformedRecordError`
(or any error) is raised; no such error class exists in the code. -/
theorem claim_C4_counterexample :
    (WALRow.from_dict mismatchedRecC4).column_names_values = [("a", PyVal.int 1)] := by
  decide

/-- C4 (amended): parsing a payload whose `columnnames` and
`columnvalues` lengths differ does not fail: `dict(zip(...))` silently
truncates the derived mapping to the shorter sequence (its size is the
minimum of the two lengths when names are distinct), while
`column_names` and `column_values` keep the full originals. -/
theorem claim_C4 (data : ChangeRecord) (hnd : data.columnnames.Nodup) :
    (WALRow.from_dict data).column_names_values.length =
      min data.columnnames.length data.columnvalues.length ∧
    (WALRow.from_dict data).column_names = data.columnnames ∧
    (WALRow.from_dict data).column_values = data.columnvalues :=
  ⟨from_dict_mapping_length data hnd, rfl, rfl⟩

/-- Witness for C4 at the concrete mismatched record. -/
theorem claim_C4_witness :
    (WALRow.from_dict mismatchedRecC4).column_names_values.length =
      min mismatchedRecC4.columnnames.length mismatchedRecC4.columnvalues.length :=
  (claim_C4 mismatchedRecC4 (by decide)).1

/-- C5: when the matched transaction row carries a `created_at` column,
the output row's `created_at` is the transaction's value (the merge
overwrites the event's). -/
theorem claim_C5 (ev : WALRow) (tx tr pitd : List (PyVal × WALRow)) (t : WALRow)
    (v : PyVal) (htx : lookupEntry (eventTxKey ev) tx = some t)
    (hca : lookupEntry "created_at" t.column_names_values = some v) :
    (mergeEventRowFun ev tx tr pitd).created_at = v := by
  show (lookupEntry "created_at" (mergeEventDict ev tx tr pitd)).getD PyVal.none = v
  rw [lookupEntry_mergeEventDict_of_tx ev tx tr pitd t "created_at" htx (by decide)
    (by decide) (by decide)]
  rw [show lookupEntry "created_at" (TransactionsRow.get_insertable_values t) =
    some (colGet t "created_at") from rfl]
  simp [colGet, hca]

/-- Witness for C5: the event's own `created_at` is replaced by the
matched transaction's. -/
theorem claim_C5_witness :
    (mergeEventRowFun evWithTx [(PyVal.int 2, txWithCreatedAt)] [] []).created_at =
      PyVal.str "2024-12-31" :=
  claim_C5 evWithTx [(PyVal.int 2, txWithCreatedAt)] [] [] txWithCreatedAt
    (PyVal.str "2024-12-31") (by rfl) (by rfl)

/-- C6: the index an aborted-free `load` builds depends only on the last
record per join key and table, and re-running `load` on the same batch
leaves the same index contents. -/
theorem claim_C6 (rs : List ChangeRecord) (st : ProcessorState)
    (h : load emptyProcessor rs = Except.ok st) :
    (∀ k, (lookupEntry k st.transaction_rows =
        (lastRecordWith "transaction" "transaction_id" k rs).map WALRow.from_dict) ∧
      (lookupEntry k st.transaction_request_rows =
        (lastRecordWith "transaction_request" "flow_id" k rs).map WALRow.from_dict) ∧
      (lookupEntry k st.payment_instrument_token_data_rows =
        (lastRecordWith "payment_instrument_token_data" "token_id" k rs).map
          WALRow.from_dict)) ∧
    ∃ st2, load st rs = Except.ok st2 ∧
      ∀ k, (lookupEntry k st2.transaction_rows = lookupEntry k st.transaction_rows) ∧
        (lookupEntry k st2.transaction_request_rows =
          lookupEntry k st.transaction_request_rows) ∧
        (lookupEntry k st2.payment_instrument_token_data_rows =
          lookupEntry k st.payment_instrument_token_data_rows) := by
  constructor
  · intro k
    obtain ⟨l1, l2, l3⟩ := load_lookup rs emptyProcessor st h k
    refine ⟨?_, ?_, ?_⟩
    · rw [l1]
      cases lastRecordWith "transaction" "transaction_id" k rs <;> rfl
    · rw [l2]
      cases lastRecordWith "transaction_request" "flow_id" k rs <;> rfl
    · rw [l3]
      cases lastRecordWith "payment_instrument_token_data" "token_id" k rs <;> rfl
  · obtain ⟨st2, h2⟩ := load_ok_indep rs emptyProcessor st st h
    refine ⟨st2, h2, ?_⟩
    intro k
    obtain ⟨m1, m2, m3⟩ := load_lookup rs st st2 h2 k
    obtain ⟨l1, l2, l3⟩ := load_lookup rs emptyProcessor st h k
    refine ⟨?_, ?_, ?_⟩
    · rw [m1, l1]
      cases lastRecordWith "transaction" "transaction_id" k rs <;> rfl
    · rw [m2, l2]
      cases lastRecordWith "transaction_request" "flow_id" k rs <;> rfl
    · rw [m3, l3]
      cases lastRecordWith "payment_instrument_token_data" "token_id" k rs <;> rfl

/-- Witness for C6 at a concrete two-record collision batch. -/
theorem claim_C6_witness :
    lookupEntry (PyVal.int 7) stateC6.transaction_rows =
      (lastRecordWith "transaction" "transaction_id" (PyVal.int 7) batchC6).map
        WALRow.from_dict :=
  ((claim_C6 batchC6 stateC6 (by rfl)).1 (PyVal.int 7)).1

/-- C7: the structured-data decode in parsing never raises: either the
decode succeeds and its result is kept, or it fails with one of the two
caught classes (`JSONDecodeError`, `TypeError`) and the original value
is kept unchanged. -/
theorem claim_C7 (v : PyVal) :
    ∃ r, transform_to_dict_if_json v = Except.ok r ∧
      (pyJsonLoads v = Except.ok r ∨
        (r = v ∧ (pyJsonLoads v = Except.error PyErr.jsonDecodeError ∨
          pyJsonLoads v = Except.error PyErr.typeError))) := by
  refine ⟨transformRun v, transform_to_dict_if_json_eq_run v, ?_⟩
  unfold transformRun
  cases hp : pyJsonLoads v with
  | ok w =>
    dsimp only
    exact Or.inl rfl
  | error e =>
    dsimp only
    rcases pyJsonLoads_error_cases v e hp with rfl | rfl
    · exact Or.inr ⟨rfl, Or.inl rfl⟩
    · exact Or.inr ⟨rfl, Or.inr rfl⟩

/-- C8 counterexample: the plain scalar string `"3"` is *not* kept as a
raw string — `json.loads` decodes it to the integer 3, which is not a
nested mapping either, contradicting "decoded into a nested mapping
exactly when it is serialized structured data; every other value,
including plain scalar strings, kept unchanged". -/
theorem claim_C8_counterexample :
    transform_to_dict_if_json (PyVal.str "3") = Except.ok (PyVal.int 3) ∧
    PyVal.int 3 ≠ PyVal.str "3" := by
  exact ⟨by rfl, by decide⟩

/-- C8 (amended): a value is replaced by its decode exactly when
`json.loads` succeeds on it — which happens for any string holding any
JSON value (object, array, number, boolean or null), not only serialized
objects; every value whose decode fails, including every non-string, is
kept unchanged. -/
theorem claim_C8 (v : PyVal) :
    (∀ d, pyJsonLoads v = Except.ok d → transform_to_dict_if_json v = Except.ok d) ∧
    ((∀ d, pyJsonLoads v ≠ Except.ok d) → transform_to_dict_if_json v = Except.ok v) ∧
    ((∀ s, v ≠ PyVal.str s) → pyJsonLoads v = Except.error PyErr.typeError) := by
  refine ⟨?_, ?_, ?_⟩
  · intro d hd
    unfold transform_to_dict_if_json
    rw [hd]
  · intro hnone
    rw [transform_to_dict_if_json_eq_run v]
    unfold transformRun
    cases hp : pyJsonLoads v with
    | ok w => exact absurd hp (hnone w)
    | error e => rfl
  · intro hns
    cases v <;> first
      | rfl
      | exact absurd rfl (hns _)

/-- Witness for C8: a JSON-object string decodes to a dict; a JSON
integer string decodes to an int (not kept); an integer value raises
`TypeError` inside the decode and is kept. -/
theorem claim_C8_witness :
    transform_to_dict_if_json (PyVal.str "\x7b\"a\": 1\x7d") =
      Except.ok (PyVal.dictCons "a" (PyVal.int 1) PyVal.dictNil) ∧
    pyJsonLoads (PyVal.int 5) = Except.error PyErr.typeError :=
  ⟨(claim_C8 (PyVal.str "\x7b\"a\": 1\x7d")).1
      (PyVal.dictCons "a" (PyVal.int 1) PyVal.dictNil) (by rfl),
    (claim_C8 (PyVal.int 5)).2.2 (by intro s; exact fun h => PyVal.noConfusion h)⟩

/-- C9: when the transaction hop matches row `t`, all six
transaction-extracted output fields are written from `t`'s columns
(`colGet`, i.e. `None` when the source column is missing) — in
particular a missing `created_at` column writes `None`, discarding the
event's own value. -/
theorem claim_C9 (ev : WALRow) (tx tr pitd : List (PyVal × WALRow)) (t : WALRow)
    (htx : lookupEntry (eventTxKey ev) tx = some t) :
    (mergeEventRowFun ev tx tr pitd).transaction_id = colGet t "transaction_id" ∧
    (mergeEventRowFun ev tx tr pitd).transaction_type = colGet t "transaction_type" ∧
    (mergeEventRowFun ev tx tr pitd).created_at = colGet t "created_at" ∧
    (mergeEventRowFun ev tx tr pitd).amount = colGet t "amount" ∧
    (mergeEventRowFun ev tx tr pitd).currency_code = colGet t "currency_code" ∧
    (mergeEventRowFun ev tx tr pitd).processor_merchant_account_id =
      colGet t "processor_merchant_account_id" ∧
    (lookupEntry "created_at" t.column_names_values = Option.none →
      (mergeEventRowFun ev tx tr pitd).created_at = PyVal.none) := by
  have h1 : (mergeEventRowFun ev tx tr pitd).transaction_id = colGet t "transaction_id" := by
    show (lookupEntry "transaction_id" (mergeEventDict ev tx tr pitd)).getD PyVal.none = _
    rw [lookupEntry_mergeEventDict_of_tx ev tx tr pitd t "transaction_id" htx (by decide)
      (by decide) (by decide)]
    rfl
  have h2 : (mergeEventRowFun ev tx tr pitd).transaction_type = colGet t "transaction_type" := by
    show (lookupEntry "transaction_type" (mergeEventDict ev tx tr pitd)).getD PyVal.none = _
    rw [lookupEntry_mergeEventDict_of_tx ev tx tr pitd t "transaction_type" htx (by decide)
      (by decide) (by decide)]
    rfl
  have h3 : (mergeEventRowFun ev tx tr pitd).created_at = colGet t "created_at" := by
    show (lookupEntry "created_at" (mergeEventDict ev tx tr pitd)).getD PyVal.none = _
    rw [lookupEntry_mergeEventDict_of_tx ev tx tr pitd t "created_at" htx (by decide)
      (by decide) (by decide)]
    rfl
  have h4 : (mergeEventRowFun ev tx tr pitd).amount = colGet t "amount" := by
    show (lookupEntry "amount" (mergeEventDict ev tx tr pitd)).getD PyVal.none = _
    rw [lookupEntry_mergeEventDict_of_tx ev tx tr pitd t "amount" htx (by decide)
      (by decide) (by decide)]
    rfl
  have h5 : (mergeEventRowFun ev tx tr pitd).currency_code = colGet t "currency_code" := by
    show (lookupEntry "currency_code" (mergeEventDict ev tx tr pitd)).getD PyVal.none = _
    rw [lookupEntry_mergeEventDict_of_tx ev tx tr pitd t "currency_code" htx (by decide)
      (by decide) (by decide)]
    rfl
  have h6 : (mergeEventRowFun ev tx tr pitd).processor_merchant_account_id =
      colGet t "processor_merchant_account_id" := by
    show (lookupEntry "processor_merchant_account_id"
      (mergeEventDict ev tx tr pitd)).getD PyVal.none = _
    rw [lookupEntry_mergeEventDict_of_tx ev tx tr pitd t "processor_merchant_account_id"
      htx (by decide) (by decide) (by decide)]
    rfl
  refine ⟨h1, h2, h3, h4, h5, h6, ?_⟩
  intro hnone
  rw [h3]
  simp [colGet, hnone]

/-- Witness for C9: the matched transaction lacks `created_at`, and the
event's own `created_at` is discarded in favour of `None`. -/
theorem claim_C9_witness :
    (mergeEventRowFun evWithTx [(PyVal.int 2, txNoCreatedAt)] [] []).created_at =
      PyVal.none ∧
    lookupEntry "created_at" evWithTx.column_names_values =
      some (PyVal.str "2023-01-01") :=
  ⟨(claim_C9 evWithTx [(PyVal.int 2, txNoCreatedAt)] [] [] txNoCreatedAt
      (by rfl)).2.2.2.2.2.2 (by rfl),
    by decide⟩

/-- C10: computing a join key succeeds exactly when the variant's key
column occurs in `column_names` (given positional alignment), returning
the positionally aligned `column_values` element; an absent key column
raises `ValueError`, and a batch containing such a record makes the
whole `load` fail rather than skip the record. -/
theorem claim_C10 (row : WALRow) (rs : List ChangeRecord) (r : ChangeRecord)
    (s : ProcessorState) :
    ("transaction_id" ∈ row.column_names →
      row.column_names.length ≤ row.column_values.length →
      ∃ i v, listIndex "transaction_id" row.column_names = some i ∧
        row.column_names[i]? = some "transaction_id" ∧
        row.column_values[i]? = some v ∧
        TransactionsRow.get_join_key row = Except.ok v) ∧
    ("transaction_id" ∉ row.column_names →
      TransactionsRow.get_join_key row = Except.error PyErr.valueError) ∧
    ("flow_id" ∈ row.column_names →
      row.column_names.length ≤ row.column_values.length →
      ∃ i v, listIndex "flow_id" row.column_names = some i ∧
        row.column_names[i]? = some "flow_id" ∧
        row.column_values[i]? = some v ∧
        TransactionRequestsRow.get_join_key row = Except.ok v) ∧
    ("flow_id" ∉ row.column_names →
      TransactionRequestsRow.get_join_key row = Except.error PyErr.valueError) ∧
    ("token_id" ∈ row.column_names →
      row.column_names.length ≤ row.column_values.length →
      ∃ i v, listIndex "token_id" row.column_names = some i ∧
        row.column_names[i]? = some "token_id" ∧
        row.column_values[i]? = some v ∧
        PaymentInstrumentTokenDataRow.get_join_key row = Except.ok v) ∧
    ("token_id" ∉ row.column_names →
      PaymentInstrumentTokenDataRow.get_join_key row = Except.error PyErr.valueError) ∧
    (r ∈ rs →
      ((r.table = "transaction" ∧ "transaction_id" ∉ r.columnnames) ∨
        (r.table = "transaction_request" ∧ "flow_id" ∉ r.columnnames) ∨
        (r.table = "payment_instrument_token_data" ∧ "token_id" ∉ r.columnnames)) →
      ∃ e, load s rs = Except.error e) := by
  refine ⟨?_, ?_, ?_, ?_, ?_, ?_, ?_⟩
  · intro hmem hlen
    exact getJoinKeyBy_ok "transaction_id" row hmem hlen
  · intro hmem
    exact getJoinKeyBy_valueError "transaction_id" row hmem
  · intro hmem hlen
    exact getJoinKeyBy_ok "flow_id" row hmem hlen
  · intro hmem
    exact getJoinKeyBy_valueError "flow_id" row hmem
  · intro hmem hlen
    exact getJoinKeyBy_ok "token_id" row hmem hlen
  · intro hmem
    exact getJoinKeyBy_valueError "token_id" row hmem
  · intro hmem hbad
    rcases hbad with ⟨htbl, hcol⟩ | ⟨htbl, hcol⟩ | ⟨htbl, hcol⟩
    · exact load_error_of_bad_record rs r hmem
        (fun s' => loadStep_error_missing s' r _ _ (Or.inl ⟨rfl, rfl⟩) htbl hcol) s
    · exact load_error_of_bad_record rs r hmem
        (fun s' => loadStep_error_missing s' r _ _ (Or.inr (Or.inl ⟨rfl, rfl⟩)) htbl hcol) s
    · exact load_error_of_bad_record rs r hmem
        (fun s' => loadStep_error_missing s' r _ _ (Or.inr (Or.inr ⟨rfl, rfl⟩)) htbl hcol) s

/-- Witness for C10: a row whose `transaction_id` sits at index 1, and a
one-record batch whose transaction record lacks the key column. -/
theorem claim_C10_witness :
    (∃ i v, listIndex "transaction_id" rowWithTxId.column_names = some i ∧
      rowWithTxId.column_names[i]? = some "transaction_id" ∧
      rowWithTxId.column_values[i]? = some v ∧
      TransactionsRow.get_join_key rowWithTxId = Except.ok v) ∧
    (∃ e, load emptyProcessor [recMissingTxId] = Except.error e) :=
  ⟨(claim_C10 rowWithTxId [recMissingTxId] recMissingTxId emptyProcessor).1
      (by decide) (by decide),
    (claim_C10 rowWithTxId [recMissingTxId] recMissingTxId emptyProcessor).2.2.2.2.2.2
      (by decide) (Or.inl ⟨rfl, by decide⟩)⟩

end WalProc
